import Mathlib

/-!
Shallow embedding of the mesos slave supervision kernel, translated from
src/slave/slave.cpp.  The registry (frameworks, executors, tasks, pending
status updates) is explicit state; every protobuf handler of the Slave
actor becomes a function from the state to a new state paired with the
list of externally visible effects it produced (messages sent, dispatches
to the isolation module, timers armed, directories scheduled for garbage
collection).  Hash maps of the source are modelled as association lists in
insertion order; the random UUID generator is determinized by a counter
threaded through the state; the wall clock is a counter read by handlers.

The companion header slave.hpp (Framework, Executor and their methods) is
not part of the given sources; each definition taken from it is modelled
from the specification and carries a doc comment saying so.
-/

set_option linter.unusedVariables false

namespace Mesos

/-- Task states, from TaskState in the protobuf interface used by slave.cpp. -/
inductive TaskState where
  | staging
  | starting
  | running
  | finished
  | failed
  | killed
  | lost
deriving DecidableEq, Repr

/-- Translation of isTerminalTaskState (slave.cpp lines 58 to 64): a task
state is terminal when it is TASK_FINISHED, TASK_FAILED, TASK_KILLED or
TASK_LOST. -/
def isTerminalTaskState (state : TaskState) : Bool :=
  state == TaskState.finished ||
  state == TaskState.failed ||
  state == TaskState.killed ||
  state == TaskState.lost

/-- Executor descriptor: the part of ExecutorInfo the kernel reads. -/
structure ExecutorInfo where
  executorId : String
deriving DecidableEq, Repr

/-- Framework descriptor: the part of FrameworkInfo the kernel reads. -/
structure FrameworkInfo where
  user : String
  name : String
deriving DecidableEq, Repr

/-- TaskInfo as carried by a RunTask message: the task id, the optional
task-provided executor, whether the task carries its own command, and its
resource vector (abstracted to a scalar). -/
structure TaskInfo where
  taskId : String
  executorOpt : Option ExecutorInfo
  hasCommand : Bool
  resources : Nat
deriving DecidableEq, Repr

/-- A launched Task record: built from a TaskInfo by Executor.addTask; the
hasExecutorId field mirrors has_executor_id of the protobuf Task, set when
the originating TaskInfo carried a task-provided executor. -/
structure Task where
  taskId : String
  hasExecutorId : Bool
  state : TaskState
  resources : Nat
deriving DecidableEq, Repr

/-- A status update: framework id, slave id, optional executor id, task id,
state, human-readable message, timestamp and uuid, as assembled by the
handlers in slave.cpp. -/
structure StatusUpdate where
  frameworkId : String
  slaveId : String
  executorId : Option String
  taskId : String
  state : TaskState
  message : String
  timestamp : Nat
  uuid : Nat
deriving DecidableEq, Repr

/-- Outbound messages of the slave that the embedded handlers produce. -/
inductive Message where
  | statusUpdateMsg (update : StatusUpdate) (pid : Option String)
  | runTaskMsg (frameworkInfo : FrameworkInfo) (frameworkId : String)
      (pid : String) (task : TaskInfo)
  | executorRegisteredMsg (executorInfo : ExecutorInfo) (frameworkId : String)
      (frameworkInfo : FrameworkInfo) (slaveId : String)
  | shutdownExecutorMsg
  | killTaskMsg (frameworkId : String) (taskId : String)
  | exitedExecutorMsg (slaveId : String) (frameworkId : String)
      (executorId : String) (status : Int)
deriving DecidableEq, Repr

/-- Externally visible effects of a handler, in the order the source code
performs them: message sends, dispatches to the isolation module, timers
armed via delay, and executor directories scheduled for garbage
collection. -/
inductive Effect where
  | sendMaster (m : Message)
  | sendExecutor (pid : String) (m : Message)
  | replyToSender (m : Message)
  | dispatchResourcesChanged (frameworkId : String) (executorId : String)
      (resources : Nat)
  | dispatchLaunchExecutor (frameworkId : String) (executorId : String)
      (directory : String) (resources : Nat)
  | dispatchKillExecutor (frameworkId : String) (executorId : String)
  | scheduleStatusUpdateTimeout (delaySeconds : Nat) (frameworkId : String)
      (uuid : Nat)
  | scheduleShutdownExecutorTimeout (delaySeconds : Nat) (frameworkId : String)
      (executorId : String) (uuid : Nat)
  | scheduleExecutorDirGC (directory : String)
deriving DecidableEq, Repr

/-- An executor record, modelled from the spec (slave.hpp is not among the
given sources): executor id, descriptor, a uuid fresh per incarnation, the
working directory, the runtime pid (unset until registration), the shutdown
flag, queued TaskInfos and launched Tasks, both keyed by task id. -/
structure Executor where
  id : String
  info : ExecutorInfo
  uuid : Nat
  directory : String
  pid : Option String
  shutdown : Bool
  queuedTasks : List TaskInfo
  launchedTasks : List Task
deriving DecidableEq, Repr

/-- A framework record, modelled from the spec: framework id, descriptor,
the pid of the framework driver, the owned executors, and the map of
outbound status updates keyed by uuid awaiting acknowledgement. -/
structure Framework where
  id : String
  info : FrameworkInfo
  pid : String
  executors : List Executor
  updates : List (Nat × StatusUpdate)
deriving DecidableEq, Repr

/-- Statistics counters initialized in Slave.initialize and incremented by
the handlers: one counter per task state plus the validity counters. -/
structure Stats where
  stagingTasks : Nat
  startingTasks : Nat
  runningTasks : Nat
  finishedTasks : Nat
  failedTasks : Nat
  killedTasks : Nat
  lostTasks : Nat
  validStatusUpdates : Nat
  invalidStatusUpdates : Nat
  validFrameworkMessages : Nat
  invalidFrameworkMessages : Nat
deriving DecidableEq, Repr

/-- Read the per-state task counter, stats.tasks of the source. -/
def Stats.tasksCounter (st : Stats) : TaskState → Nat
  | TaskState.staging => st.stagingTasks
  | TaskState.starting => st.startingTasks
  | TaskState.running => st.runningTasks
  | TaskState.finished => st.finishedTasks
  | TaskState.failed => st.failedTasks
  | TaskState.killed => st.killedTasks
  | TaskState.lost => st.lostTasks

/-- Increment the per-state task counter, stats.tasks of the source. -/
def Stats.incTask (st : Stats) : TaskState → Stats
  | TaskState.staging => { st with stagingTasks := st.stagingTasks + 1 }
  | TaskState.starting => { st with startingTasks := st.startingTasks + 1 }
  | TaskState.running => { st with runningTasks := st.runningTasks + 1 }
  | TaskState.finished => { st with finishedTasks := st.finishedTasks + 1 }
  | TaskState.failed => { st with failedTasks := st.failedTasks + 1 }
  | TaskState.killed => { st with killedTasks := st.killedTasks + 1 }
  | TaskState.lost => { st with lostTasks := st.lostTasks + 1 }

/-- The state owned by the Slave actor: the slave id, the pid of the slave
actor itself (stamped onto forwarded status updates), the registry of
frameworks, the statistics, the determinized uuid source, the clock, the
work directory root and the executor shutdown timeout flag. -/
structure SlaveState where
  id : String
  selfPid : String
  frameworks : List Framework
  stats : Stats
  nextUuid : Nat
  clock : Nat
  workDir : String
  executorShutdownTimeoutSeconds : Nat
deriving DecidableEq, Repr

/-- Modelled from the spec: STATUS_UPDATE_RETRY_INTERVAL, the configurable
retry interval of the status update reliability engine (the constant is
declared outside the given sources; the spec says the default is a few
seconds). -/
def STATUS_UPDATE_RETRY_INTERVAL_SECONDS : Nat := 10

/-- Insert or replace a TaskInfo keyed by task id, the association-list
rendering of hashmap assignment queuedTasks of the source. -/
def insertTaskInfo (l : List TaskInfo) (t : TaskInfo) : List TaskInfo :=
  if l.any (fun x => x.taskId == t.taskId) then
    l.map (fun x => if x.taskId == t.taskId then t else x)
  else
    l ++ [t]

/-- Insert or replace a Task keyed by task id, the association-list
rendering of hashmap assignment launchedTasks of the source. -/
def insertTask (l : List Task) (t : Task) : List Task :=
  if l.any (fun x => x.taskId == t.taskId) then
    l.map (fun x => if x.taskId == t.taskId then t else x)
  else
    l ++ [t]

/-- Insert or replace a pending status update keyed by uuid, the
association-list rendering of hashmap assignment updates of the source. -/
def insertUpdate (l : List (Nat × StatusUpdate)) (uuid : Nat)
    (u : StatusUpdate) : List (Nat × StatusUpdate) :=
  if l.any (fun p => p.1 == uuid) then
    l.map (fun p => if p.1 == uuid then (uuid, u) else p)
  else
    l ++ [(uuid, u)]

/-- Lookup of a pending status update by uuid. -/
def lookupUpdate (l : List (Nat × StatusUpdate)) (uuid : Nat) :
    Option StatusUpdate :=
  (l.find? (fun p => p.1 == uuid)).map (fun p => p.2)

/-- Membership test for a pending status update by uuid, the contains call
of the source. -/
def containsUpdate (l : List (Nat × StatusUpdate)) (uuid : Nat) : Bool :=
  l.any (fun p => p.1 == uuid)

namespace Executor

/-- Modelled from the spec: an executor owns its launched Tasks and its
queued TaskInfos, so a task id is owned when it is in either map. -/
def ownsTask (e : Executor) (taskId : String) : Bool :=
  e.queuedTasks.any (fun t => t.taskId == taskId) ||
  e.launchedTasks.any (fun t => t.taskId == taskId)

/-- Modelled from the spec: Executor.addTask builds a launched Task record
from a TaskInfo (fresh tasks enter in state TASK_STAGING; has_executor_id
is set when the TaskInfo carried a task-provided executor) and stores it in
launchedTasks. -/
def addTask (e : Executor) (task : TaskInfo) : Executor :=
  { e with
    launchedTasks := insertTask e.launchedTasks
      { taskId := task.taskId
        hasExecutorId := task.executorOpt.isSome
        state := TaskState.staging
        resources := task.resources } }

/-- Modelled from the spec: Executor.removeTask erases the task id from
both task maps (the kill path removes queued tasks with it and the status
update path removes launched tasks with it). -/
def removeTask (e : Executor) (taskId : String) : Executor :=
  { e with
    queuedTasks := e.queuedTasks.filter (fun t => !(t.taskId == taskId))
    launchedTasks := e.launchedTasks.filter (fun t => !(t.taskId == taskId)) }

/-- Modelled from the spec: Executor.updateTaskState sets the state of the
launched task with the given id, when present. -/
def updateTaskState (e : Executor) (taskId : String) (state : TaskState) :
    Executor :=
  { e with
    launchedTasks := e.launchedTasks.map
      (fun t => if t.taskId == taskId then { t with state := state } else t) }

/-- Modelled from the spec: Executor.isolationResources is the sum of the
per-task resource vectors currently on the executor (queued and
launched). -/
def isolationResources (e : Executor) : Nat :=
  (e.queuedTasks.map TaskInfo.resources).sum +
  (e.launchedTasks.map Task.resources).sum

end Executor

/-- Replace the executor with the id of the given executor in the list,
the association-list rendering of mutating an executor through its
pointer. -/
def replaceExecutor (l : List Executor) (e : Executor) : List Executor :=
  l.map (fun x => if x.id == e.id then e else x)

namespace Framework

/-- Modelled from the spec: Framework.getExecutor returns the executor
with the given executor id, when present. -/
def getExecutor (fw : Framework) (executorId : String) : Option Executor :=
  fw.executors.find? (fun e => e.id == executorId)

/-- Modelled from the spec: the overload of Framework.getExecutor on a task
id returns the executor that owns a task with that id (used by the kill
and status update paths, which only see the task id). -/
def getExecutorByTask (fw : Framework) (taskId : String) : Option Executor :=
  fw.executors.find? (fun e => e.ownsTask taskId)

/-- Modelled from the spec: Framework.getExecutorInfo derives the target
ExecutorInfo from the task: either the task-provided executor, or an
implicit command executor derived from the task carrying its own command
(its executor id is derived from the task id). -/
def getExecutorInfo (fw : Framework) (task : TaskInfo) : ExecutorInfo :=
  match task.executorOpt with
  | some executorInfo => executorInfo
  | none => { executorId := task.taskId }

/-- Modelled from the spec: Framework.createExecutor adds a fresh executor
record for the descriptor and directory; the uuid is fresh per incarnation
(drawn by the caller from the determinized uuid source), the pid is unset
and the shutdown flag clear. -/
def createExecutor (fw : Framework) (info : ExecutorInfo)
    (directory : String) (uuid : Nat) : Framework × Executor :=
  let e : Executor :=
    { id := info.executorId
      info := info
      uuid := uuid
      directory := directory
      pid := none
      shutdown := false
      queuedTasks := []
      launchedTasks := [] }
  ({ fw with executors := fw.executors ++ [e] }, e)

/-- Modelled from the spec: Framework.destroyExecutor removes the executor
record with the given id. -/
def destroyExecutor (fw : Framework) (executorId : String) : Framework :=
  { fw with executors := fw.executors.filter (fun e => !(e.id == executorId)) }

end Framework

namespace Slave

/-- Translation of Slave.getFramework (slave.cpp lines 880 to 887). -/
def getFramework (s : SlaveState) (frameworkId : String) : Option Framework :=
  s.frameworks.find? (fun f => f.id == frameworkId)

/-- Store back a framework mutated through its pointer: every entry with
its id is replaced. -/
def setFramework (s : SlaveState) (framework : Framework) : SlaveState :=
  { s with
    frameworks := s.frameworks.map
      (fun f => if f.id == framework.id then framework else f) }

/-- Erase the framework with the given id, frameworks.erase of the
source. -/
def eraseFramework (s : SlaveState) (frameworkId : String) : SlaveState :=
  { s with
    frameworks := s.frameworks.filter (fun f => !(f.id == frameworkId)) }

/-- Translation of Slave.createUniqueWorkDirectory (slave.cpp lines 1137
to 1174): the run directory path under the work root; the filesystem
probing for the first unused run index is outside the model, so the first
candidate path (run index 0) is returned, as the source does in dry-run
mode. -/
def createUniqueWorkDirectory (s : SlaveState) (frameworkId : String)
    (executorId : String) : String :=
  s.workDir ++ "/slaves/" ++ s.id ++ "/frameworks/" ++ frameworkId ++
    "/executors/" ++ executorId ++ "/runs/0"

/-- The body of Slave.runTask after the framework has been interned
(slave.cpp lines 423 to 494): derive the target executor and either
synthesize TASK_LOST, queue the task, forward it, or launch a new
executor. -/
def runTaskDispatch (frameworkId : String) (framework : Framework)
    (task : TaskInfo) (s : SlaveState) : SlaveState × List Effect :=
  let executorInfo := framework.getExecutorInfo task
  let executorId := executorInfo.executorId
  match framework.getExecutor executorId with
  | some executor =>
    if executor.shutdown then
      -- lines 432 to 448: executor shutting down, synthesize TASK_LOST.
      let update : StatusUpdate :=
        { frameworkId := frameworkId
          slaveId := s.id
          executorId := some executorId
          taskId := task.taskId
          state := TaskState.lost
          message := ""
          timestamp := s.clock
          uuid := s.nextUuid }
      ({ s with nextUuid := s.nextUuid + 1 },
       [Effect.sendMaster (Message.statusUpdateMsg update none)])
    else
      match executor.pid with
      | none =>
        -- lines 449 to 454: queue the task until the executor starts up.
        let executor2 :=
          { executor with queuedTasks := insertTaskInfo executor.queuedTasks task }
        (setFramework s
          { framework with executors := replaceExecutor framework.executors executor2 },
         [])
      | some executorPid =>
        -- lines 455 to 474: add the task and send it to the executor.
        let executor2 := executor.addTask task
        let s := { s with stats := s.stats.incTask TaskState.staging }
        let s := setFramework s
          { framework with executors := replaceExecutor framework.executors executor2 }
        (s,
         [Effect.dispatchResourcesChanged framework.id executor2.id
            executor2.isolationResources,
          Effect.sendExecutor executorPid
            (Message.runTaskMsg framework.info framework.id framework.pid task)])
  | none =>
    -- lines 475 to 494: launch an executor for this task.
    let directory := createUniqueWorkDirectory s framework.id executorId
    let fwExec := framework.createExecutor executorInfo directory s.nextUuid
    let framework2 := fwExec.1
    let executor := fwExec.2
    let executor2 :=
      { executor with queuedTasks := insertTaskInfo executor.queuedTasks task }
    let framework3 :=
      { framework2 with executors := replaceExecutor framework2.executors executor2 }
    let s := { s with nextUuid := s.nextUuid + 1 }
    (setFramework s framework3,
     [Effect.dispatchLaunchExecutor framework3.id executor2.id directory
        executor2.isolationResources])

/-- Translation of Slave.runTask (slave.cpp lines 409 to 495): intern or
create the framework (lines 417 to 421), then dispatch on the target
executor. -/
def runTask (frameworkInfo : FrameworkInfo) (frameworkId : String)
    (pid : String) (task : TaskInfo) (s : SlaveState) :
    SlaveState × List Effect :=
  match getFramework s frameworkId with
  | some framework => runTaskDispatch frameworkId framework task s
  | none =>
    let framework : Framework :=
      { id := frameworkId
        info := frameworkInfo
        pid := pid
        executors := []
        updates := [] }
    runTaskDispatch frameworkId framework task
      { s with frameworks := s.frameworks ++ [framework] }

/-- Translation of Slave.killTask (slave.cpp lines 498 to 571). -/
def killTask (frameworkId : String) (taskId : String) (s : SlaveState) :
    SlaveState × List Effect :=
  match getFramework s frameworkId with
  | none =>
    -- lines 505 to 521: no such framework, synthesize TASK_LOST.
    let update : StatusUpdate :=
      { frameworkId := frameworkId
        slaveId := s.id
        executorId := none
        taskId := taskId
        state := TaskState.lost
        message := ""
        timestamp := s.clock
        uuid := s.nextUuid }
    ({ s with nextUuid := s.nextUuid + 1 },
     [Effect.sendMaster (Message.statusUpdateMsg update none)])
  | some framework =>
    match framework.getExecutorByTask taskId with
    | none =>
      -- lines 528 to 542: no such task, synthesize TASK_LOST.
      let update : StatusUpdate :=
        { frameworkId := framework.id
          slaveId := s.id
          executorId := none
          taskId := taskId
          state := TaskState.lost
          message := ""
          timestamp := s.clock
          uuid := s.nextUuid }
      ({ s with nextUuid := s.nextUuid + 1 },
       [Effect.sendMaster (Message.statusUpdateMsg update none)])
    | some executor =>
      match executor.pid with
      | none =>
        -- lines 543 to 562: remove the queued task, update resources,
        -- synthesize TASK_KILLED.
        let executor2 := executor.removeTask taskId
        let framework2 :=
          { framework with executors := replaceExecutor framework.executors executor2 }
        let s2 := setFramework s framework2
        let update : StatusUpdate :=
          { frameworkId := framework.id
            slaveId := s2.id
            executorId := some executor.id
            taskId := taskId
            state := TaskState.killed
            message := ""
            timestamp := s2.clock
            uuid := s2.nextUuid }
        ({ s2 with nextUuid := s2.nextUuid + 1 },
         [Effect.dispatchResourcesChanged framework.id executor2.id
            executor2.isolationResources,
          Effect.sendMaster (Message.statusUpdateMsg update none)])
      | some executorPid =>
        -- lines 563 to 570: forward a KillTask message to the executor.
        (s, [Effect.sendExecutor executorPid
              (Message.killTaskMsg frameworkId taskId)])

/-- Translation of Slave.updateFramework (slave.cpp lines 635 to 644). -/
def updateFramework (frameworkId : String) (pid : String) (s : SlaveState) :
    SlaveState × List Effect :=
  match getFramework s frameworkId with
  | none => (s, [])
  | some framework => (setFramework s { framework with pid := pid }, [])

/-- Translation of Slave.statusUpdateAcknowledgement (slave.cpp lines 647
to 668). -/
def statusUpdateAcknowledgement (slaveId : String) (frameworkId : String)
    (taskId : String) (uuid : Nat) (s : SlaveState) :
    SlaveState × List Effect :=
  match getFramework s frameworkId with
  | none => (s, [])
  | some framework =>
    if containsUpdate framework.updates uuid then
      let framework2 :=
        { framework with
          updates := framework.updates.filter (fun p => !(p.1 == uuid)) }
      -- lines 661 to 665: cleanup if the framework has no executors
      -- running and no pending updates.
      if framework2.executors.length == 0 && framework2.updates.isEmpty then
        (eraseFramework s framework2.id, [])
      else
        (setFramework s framework2, [])
    else
      (s, [])

/-- Translation of Slave.registerExecutor (slave.cpp lines 671 to 749);
the sender pid is the from of the message. -/
def registerExecutor (senderPid : String) (frameworkId : String)
    (executorId : String) (s : SlaveState) : SlaveState × List Effect :=
  match getFramework s frameworkId with
  | none =>
    -- lines 678 to 685: framework is gone, tell the executor to exit.
    (s, [Effect.replyToSender Message.shutdownExecutorMsg])
  | some framework =>
    match framework.getExecutor executorId with
    | none =>
      -- lines 690 to 693: unexpected executor.
      (s, [Effect.replyToSender Message.shutdownExecutorMsg])
    | some executor =>
      if executor.pid.isSome then
        -- lines 694 to 698: executor already running.
        (s, [Effect.replyToSender Message.shutdownExecutorMsg])
      else if executor.shutdown then
        -- lines 699 to 703: executor should be shutting down.
        (s, [Effect.replyToSender Message.shutdownExecutorMsg])
      else
        -- lines 704 to 748: save the pid, account the queued tasks, set
        -- resource limits, send ExecutorRegistered, flush queued tasks.
        let executor2 := { executor with pid := some senderPid }
        let queued := executor2.queuedTasks
        let executor3 := queued.foldl (fun e t => e.addTask t) executor2
        let executor4 := { executor3 with queuedTasks := [] }
        let framework2 :=
          { framework with executors := replaceExecutor framework.executors executor4 }
        let s := setFramework s framework2
        let s := queued.foldl
          (fun st _ => { st with stats := st.stats.incTask TaskState.staging }) s
        (s,
         [Effect.dispatchResourcesChanged framework.id executor3.id
            executor3.isolationResources,
          Effect.sendExecutor senderPid
            (Message.executorRegisteredMsg executor3.info framework.id
              framework.info s.id)] ++
         queued.map (fun t =>
           Effect.sendExecutor senderPid
             (Message.runTaskMsg framework.info framework.id framework.pid t)))

/-- Translation of Slave.statusUpdate (slave.cpp lines 752 to 803); named
for the handler Slave::statusUpdate. -/
def statusUpdate (update : StatusUpdate) (s : SlaveState) :
    SlaveState × List Effect :=
  match getFramework s update.frameworkId with
  | none =>
    -- lines 798 to 802: could not look up the framework.
    ({ s with stats :=
        { s.stats with invalidStatusUpdates := s.stats.invalidStatusUpdates + 1 } },
     [])
  | some framework =>
    match framework.getExecutorByTask update.taskId with
    | none =>
      -- lines 793 to 797: could not look up the executor.
      ({ s with stats :=
          { s.stats with invalidStatusUpdates := s.stats.invalidStatusUpdates + 1 } },
       [])
    | some executor =>
      let executor2 := executor.updateTaskState update.taskId update.state
      let terminalPair : Executor × List Effect :=
        if isTerminalTaskState update.state then
          let executor3 := executor2.removeTask update.taskId
          (executor3,
           [Effect.dispatchResourcesChanged framework.id executor3.id
              executor3.isolationResources])
        else
          (executor2, [])
      let executor4 := terminalPair.1
      let framework2 :=
        { framework with
          executors := replaceExecutor framework.executors executor4
          updates := insertUpdate framework.updates update.uuid update }
      let s2 := setFramework s framework2
      let s3 := { s2 with stats := s2.stats.incTask update.state }
      let s4 := { s3 with stats :=
          { s3.stats with validStatusUpdates := s3.stats.validStatusUpdates + 1 } }
      (s4,
       terminalPair.2 ++
       [Effect.sendMaster (Message.statusUpdateMsg update (some s.selfPid)),
        Effect.scheduleStatusUpdateTimeout STATUS_UPDATE_RETRY_INTERVAL_SECONDS
          framework.id update.uuid])

/-- Translation of Slave.statusUpdateTimeout (slave.cpp lines 840 to
865). -/
def statusUpdateTimeout (frameworkId : String) (uuid : Nat) (s : SlaveState) :
    SlaveState × List Effect :=
  match getFramework s frameworkId with
  | none => (s, [])
  | some framework =>
    match lookupUpdate framework.updates uuid with
    | none => (s, [])
    | some update =>
      (s,
       [Effect.sendMaster (Message.statusUpdateMsg update (some s.selfPid)),
        Effect.scheduleStatusUpdateTimeout STATUS_UPDATE_RETRY_INTERVAL_SECONDS
          framework.id uuid])

/-- Translation of Slave.createStatusUpdate (slave.cpp lines 912 to 932);
the uuid is drawn from the determinized uuid source. -/
def createStatusUpdate (taskId : String) (executorId : String)
    (frameworkId : String) (taskState : TaskState) (reason : String)
    (s : SlaveState) : StatusUpdate × SlaveState :=
  ({ frameworkId := frameworkId
     slaveId := s.id
     executorId := some executorId
     taskId := taskId
     state := taskState
     message := reason
     timestamp := s.clock
     uuid := s.nextUuid },
   { s with nextUuid := s.nextUuid + 1 })

/-- Translation of Slave.transitionLiveTask (slave.cpp lines 937 to 960):
synthesize TASK_FAILED for a command executor and TASK_LOST otherwise, and
feed the update through the inbound status update path. -/
def transitionLiveTask (taskId : String) (executorId : String)
    (frameworkId : String) (isCommandExecutor : Bool) (status : Int)
    (s : SlaveState) : SlaveState × List Effect :=
  let updateAndState :=
    if isCommandExecutor then
      createStatusUpdate taskId executorId frameworkId TaskState.failed
        "Executor running the command of the task failed" s
    else
      createStatusUpdate taskId executorId frameworkId TaskState.lost
        "Executor exited" s
  statusUpdate updateAndState.1 updateAndState.2

/-- One step of the first loop of Slave.executorExited (slave.cpp lines
1006 to 1016): a non-terminal launched task is transitioned, and the
command executor flag is recomputed from has_executor_id of the task. -/
def transitionLaunchedStep (executorId : String) (frameworkId : String)
    (status : Int) (acc : Bool × SlaveState × List Effect) (task : Task) :
    Bool × SlaveState × List Effect :=
  if isTerminalTaskState task.state then acc
  else
    let isCommandExecutor := !task.hasExecutorId
    let r := transitionLiveTask task.taskId executorId frameworkId
      isCommandExecutor status acc.2.1
    (isCommandExecutor, r.1, acc.2.2 ++ r.2)

/-- One step of the second loop of Slave.executorExited (slave.cpp lines
1019 to 1027): a queued task is transitioned, and the command executor
flag is recomputed from has_command of the task. -/
def transitionQueuedStep (executorId : String) (frameworkId : String)
    (status : Int) (acc : Bool × SlaveState × List Effect) (task : TaskInfo) :
    Bool × SlaveState × List Effect :=
  let isCommandExecutor := task.hasCommand
  let r := transitionLiveTask task.taskId executorId frameworkId
    isCommandExecutor status acc.2.1
  (isCommandExecutor, r.1, acc.2.2 ++ r.2)

/-- Translation of Slave.executorExited (slave.cpp lines 974 to 1042).
The source iterates over copies of the task maps: the launched copy is
taken before the first loop, the queued copy after it, so the queued tasks
are re-read from the state mutated by the first loop. -/
def executorExited (frameworkId : String) (executorId : String)
    (status : Int) (s : SlaveState) : SlaveState × List Effect :=
  match getFramework s frameworkId with
  | none => (s, [])
  | some framework =>
    match framework.getExecutor executorId with
    | none => (s, [])
    | some executor =>
      let launched := executor.launchedTasks
      let acc1 := launched.foldl
        (transitionLaunchedStep executorId frameworkId status) (false, s, [])
      let queued :=
        match getFramework acc1.2.1 frameworkId with
        | some fw1 =>
          match fw1.getExecutor executorId with
          | some e1 => e1.queuedTasks
          | none => []
        | none => []
      let acc2 := queued.foldl
        (transitionQueuedStep executorId frameworkId status) acc1
      let isCommandExecutor := acc2.1
      let s2 := acc2.2.1
      let effects := acc2.2.2
      let effects :=
        if isCommandExecutor then effects
        else effects ++
          [Effect.sendMaster
            (Message.exitedExecutorMsg s2.id frameworkId executorId status)]
      let effects := effects ++ [Effect.scheduleExecutorDirGC executor.directory]
      let s3 :=
        match getFramework s2 frameworkId with
        | some fw2 => setFramework s2 (fw2.destroyExecutor executorId)
        | none => s2
      (s3, effects)

/-- Translation of Slave.shutdownExecutor (slave.cpp lines 1045 to 1061);
the source takes the framework and executor pointers, here resolved by id
(the source message to a not yet registered executor is sent to a null pid
and dropped by the transport, so it produces no effect). -/
def shutdownExecutor (frameworkId : String) (executorId : String)
    (s : SlaveState) : SlaveState × List Effect :=
  match getFramework s frameworkId with
  | none => (s, [])
  | some framework =>
    match framework.getExecutor executorId with
    | none => (s, [])
    | some executor =>
      let sendEffects : List Effect :=
        match executor.pid with
        | some executorPid =>
          [Effect.sendExecutor executorPid Message.shutdownExecutorMsg]
        | none => []
      let executor2 := { executor with shutdown := true }
      let framework2 :=
        { framework with executors := replaceExecutor framework.executors executor2 }
      (setFramework s framework2,
       sendEffects ++
       [Effect.scheduleShutdownExecutorTimeout s.executorShutdownTimeoutSeconds
          framework.id executor.id executor.uuid])

/-- Translation of Slave.shutdownFramework (slave.cpp lines 579 to 592):
shut down every executor of the framework. -/
def shutdownFramework (frameworkId : String) (s : SlaveState) :
    SlaveState × List Effect :=
  match getFramework s frameworkId with
  | none => (s, [])
  | some framework =>
    (framework.executors.map (fun e => e.id)).foldl
      (fun acc executorId =>
        let r := shutdownExecutor frameworkId executorId acc.1
        (r.1, acc.2 ++ r.2))
      (s, [])

/-- Translation of Slave.shutdownExecutorTimeout (slave.cpp lines 1064 to
1092): kill the executor when it is still present with a matching uuid;
then, regardless of that check, destroy the framework when it has no
executors left. -/
def shutdownExecutorTimeout (frameworkId : String) (executorId : String)
    (uuid : Nat) (s : SlaveState) : SlaveState × List Effect :=
  match getFramework s frameworkId with
  | none => (s, [])
  | some framework =>
    let killed : SlaveState × Framework × List Effect :=
      match framework.getExecutor executorId with
      | some executor =>
        if executor.uuid == uuid then
          let framework2 := framework.destroyExecutor executorId
          (setFramework s framework2, framework2,
           [Effect.dispatchKillExecutor framework.id executor.id,
            Effect.scheduleExecutorDirGC executor.directory])
        else
          (s, framework, [])
      | none => (s, framework, [])
    let s2 := killed.1
    let framework3 := killed.2.1
    let effects := killed.2.2
    if framework3.executors.length == 0 then
      (eraseFramework s2 frameworkId, effects)
    else
      (s2, effects)

end Slave

/-- The inbound events whose handlers touch the registry, for statements
quantifying over every handler. -/
inductive Event where
  | runTask (frameworkInfo : FrameworkInfo) (frameworkId : String)
      (pid : String) (task : TaskInfo)
  | killTask (frameworkId : String) (taskId : String)
  | shutdownFramework (frameworkId : String)
  | updateFramework (frameworkId : String) (pid : String)
  | statusUpdateAcknowledgement (slaveId : String) (frameworkId : String)
      (taskId : String) (uuid : Nat)
  | registerExecutor (senderPid : String) (frameworkId : String)
      (executorId : String)
  | statusUpdate (update : StatusUpdate)
  | statusUpdateTimeout (frameworkId : String) (uuid : Nat)
  | executorExited (frameworkId : String) (executorId : String) (status : Int)
  | shutdownExecutorTimeout (frameworkId : String) (executorId : String)
      (uuid : Nat)
deriving DecidableEq, Repr

/-- Dispatch an event to its handler. -/
def step (ev : Event) (s : SlaveState) : SlaveState × List Effect :=
  match ev with
  | Event.runTask frameworkInfo frameworkId pid task =>
    Slave.runTask frameworkInfo frameworkId pid task s
  | Event.killTask frameworkId taskId => Slave.killTask frameworkId taskId s
  | Event.shutdownFramework frameworkId => Slave.shutdownFramework frameworkId s
  | Event.updateFramework frameworkId pid =>
    Slave.updateFramework frameworkId pid s
  | Event.statusUpdateAcknowledgement slaveId frameworkId taskId uuid =>
    Slave.statusUpdateAcknowledgement slaveId frameworkId taskId uuid s
  | Event.registerExecutor senderPid frameworkId executorId =>
    Slave.registerExecutor senderPid frameworkId executorId s
  | Event.statusUpdate update => Slave.statusUpdate update s
  | Event.statusUpdateTimeout frameworkId uuid =>
    Slave.statusUpdateTimeout frameworkId uuid s
  | Event.executorExited frameworkId executorId status =>
    Slave.executorExited frameworkId executorId status s
  | Event.shutdownExecutorTimeout frameworkId executorId uuid =>
    Slave.shutdownExecutorTimeout frameworkId executorId uuid s

/-- Lookup of an executor by framework id and executor id in a state. -/
def lookupExecutor (s : SlaveState) (frameworkId : String)
    (executorId : String) : Option Executor :=
  match Slave.getFramework s frameworkId with
  | some fw => fw.getExecutor executorId
  | none => none

/-- The task ids currently on an executor, queued and launched. -/
def executorTaskIds (e : Executor) : List String :=
  e.queuedTasks.map TaskInfo.taskId ++ e.launchedTasks.map Task.taskId

/-- Well-formedness of an executor, the data-model invariant of the spec:
task ids are unique within each map and a task is either queued or
launched, never both. -/
def ExecutorWF (e : Executor) : Prop :=
  (e.queuedTasks.map TaskInfo.taskId).Nodup ∧
  (e.launchedTasks.map Task.taskId).Nodup ∧
  ∀ tid ∈ e.queuedTasks.map TaskInfo.taskId,
    tid ∉ e.launchedTasks.map Task.taskId

/-- Well-formedness of a framework, the data-model invariant of the spec:
executor ids are unique, every executor is well formed, and every live
task belongs to exactly one executor. -/
def FrameworkWF (fw : Framework) : Prop :=
  (fw.executors.map Executor.id).Nodup ∧
  (∀ e ∈ fw.executors, ExecutorWF e) ∧
  List.Pairwise (fun e1 e2 => ∀ tid ∈ executorTaskIds e1,
    e2.ownsTask tid = false) fw.executors

/-- An effect that is not an ExitedExecutor notification to the master. -/
def nonExitedEffect (x : Effect) : Prop :=
  ∀ slaveId frameworkId executorId status,
    ¬ x = Effect.sendMaster
      (Message.exitedExecutorMsg slaveId frameworkId executorId status)

/-- All statistics counters at zero, as Slave.initialize sets them. -/
def initialStats : Stats :=
  { stagingTasks := 0
    startingTasks := 0
    runningTasks := 0
    finishedTasks := 0
    failedTasks := 0
    killedTasks := 0
    lostTasks := 0
    validStatusUpdates := 0
    invalidStatusUpdates := 0
    validFrameworkMessages := 0
    invalidFrameworkMessages := 0 }

/-- A freshly initialized slave with an empty registry, used as the start
of the concrete traces below. -/
def initialState : SlaveState :=
  { id := "s7"
    selfPid := "slave"
    frameworks := []
    stats := initialStats
    nextUuid := 0
    clock := 0
    workDir := "work"
    executorShutdownTimeoutSeconds := 5 }

/-- Sample framework descriptor for the concrete traces. -/
def sampleFrameworkInfo : FrameworkInfo := { user := "alice", name := "fw" }

/-- Sample executor descriptor for the concrete traces. -/
def sampleExecutorInfo : ExecutorInfo := { executorId := "e1" }

/-- Sample task t1: targets executor e1, does not carry its own command. -/
def sampleTask1 : TaskInfo :=
  { taskId := "t1"
    executorOpt := some sampleExecutorInfo
    hasCommand := false
    resources := 1 }

/-- Sample task t2: also targets executor e1. -/
def sampleTask2 : TaskInfo :=
  { taskId := "t2"
    executorOpt := some sampleExecutorInfo
    hasCommand := false
    resources := 2 }

/-- Reachable state: one RunTask from the initial state has created
framework f1 and executor e1 (unregistered) with queued task t1. -/
def stateAfterLaunch : SlaveState :=
  (Slave.runTask sampleFrameworkInfo "f1" "driver1" sampleTask1 initialState).1

/-- Reachable state: the queued task was killed before executor e1
registered, so e1 has no tasks and f1 has no pending updates. -/
def stateAfterKill : SlaveState :=
  (Slave.killTask "f1" "t1" stateAfterLaunch).1

/-- Reachable state: ShutdownFramework arrived while executor e1 was still
unregistered, so e1 is marked shutdown and still holds queued task t1. -/
def stateAfterShutdownFramework : SlaveState :=
  (Slave.shutdownFramework "f1" stateAfterLaunch).1

/-- Reachable state: executor e1 exited while it had no tasks at all; the
executor record is destroyed. -/
def stateAfterExitNoTasks : SlaveState :=
  (Slave.executorExited "f1" "e1" 9 stateAfterKill).1

/-- Reachable state: executor e1 exited while shutting down with queued
task t1; the synthesized TASK_LOST update is pending in f1.updates and the
executor record is destroyed. -/
def stateAfterExitQueued : SlaveState :=
  (Slave.executorExited "f1" "e1" 9 stateAfterShutdownFramework).1

/-- The executor record of e1 as created by the first RunTask (the value
of the only executor in stateAfterLaunch). -/
def launchedExecutor : Executor :=
  { id := "e1"
    info := sampleExecutorInfo
    uuid := 0
    directory := "work/slaves/s7/frameworks/f1/executors/e1/runs/0"
    pid := none
    shutdown := false
    queuedTasks := [sampleTask1]
    launchedTasks := [] }

/-- The framework record of f1 in stateAfterLaunch. -/
def launchedFramework : Framework :=
  { id := "f1"
    info := sampleFrameworkInfo
    pid := "driver1"
    executors := [launchedExecutor]
    updates := [] }

/-- The framework record of f1 in stateAfterExitQueued: no executors left
but one unacknowledged synthesized TASK_LOST update. -/
def exitQueuedFramework : Framework :=
  { id := "f1"
    info := sampleFrameworkInfo
    pid := "driver1"
    executors := []
    updates := [(1,
      { frameworkId := "f1"
        slaveId := "s7"
        executorId := some "e1"
        taskId := "t1"
        state := TaskState.lost
        message := "Executor exited"
        timestamp := 0
        uuid := 1 })] }

/-- Reachable state: executor e1 registered from pid epid1; the queued
task t1 moved into launchedTasks in state TASK_STAGING. -/
def stateAfterRegister : SlaveState :=
  (Slave.registerExecutor "epid1" "f1" "e1" stateAfterLaunch).1

/-- The executor record of e1 in stateAfterRegister. -/
def registeredExecutor : Executor :=
  { id := "e1"
    info := sampleExecutorInfo
    uuid := 0
    directory := "work/slaves/s7/frameworks/f1/executors/e1/runs/0"
    pid := some "epid1"
    shutdown := false
    queuedTasks := []
    launchedTasks := [{ taskId := "t1"
                        hasExecutorId := true
                        state := TaskState.staging
                        resources := 1 }] }

/-- The framework record of f1 in stateAfterRegister. -/
def registeredFramework : Framework :=
  { id := "f1"
    info := sampleFrameworkInfo
    pid := "driver1"
    executors := [registeredExecutor]
    updates := [] }

/-- The executor record of e1 in stateAfterKill: the queued task was
removed, no task remains. -/
def killedExecutor : Executor :=
  { id := "e1"
    info := sampleExecutorInfo
    uuid := 0
    directory := "work/slaves/s7/frameworks/f1/executors/e1/runs/0"
    pid := none
    shutdown := false
    queuedTasks := []
    launchedTasks := [] }

/-- The framework record of f1 in stateAfterKill. -/
def killedFramework : Framework :=
  { id := "f1"
    info := sampleFrameworkInfo
    pid := "driver1"
    executors := [killedExecutor]
    updates := [] }

/-- A RUNNING status update for task t1 as an executor would send it. -/
def sampleRunningUpdate : StatusUpdate :=
  { frameworkId := "f1"
    slaveId := "s7"
    executorId := some "e1"
    taskId := "t1"
    state := TaskState.running
    message := ""
    timestamp := 0
    uuid := 7 }

/-- Reachable state: the RUNNING update for t1 was processed, recorded in
f1.updates under uuid 7 and forwarded to the master. -/
def stateAfterUpdate : SlaveState :=
  (Slave.statusUpdate sampleRunningUpdate stateAfterRegister).1

/-- The executor record of e1 in stateAfterShutdownFramework: still
unregistered, queued task t1, shutdown flag set. -/
def shutdownMarkedExecutor : Executor :=
  { launchedExecutor with shutdown := true }

/-- The framework record of f1 in stateAfterShutdownFramework. -/
def shutdownMarkedFramework : Framework :=
  { launchedFramework with executors := [shutdownMarkedExecutor] }

/-- The framework record of f1 in stateAfterUpdate: t1 is RUNNING and the
update with uuid 7 is pending acknowledgement. -/
def updatedFramework : Framework :=
  { id := "f1"
    info := sampleFrameworkInfo
    pid := "driver1"
    executors := [{ registeredExecutor with
      launchedTasks := [{ taskId := "t1"
                          hasExecutorId := true
                          state := TaskState.running
                          resources := 1 }] }]
    updates := [(7, sampleRunningUpdate)] }

/-! Generic association-list lemmas used throughout the proofs. -/

theorem find?_map_pred_eq {α : Type} (l : List α) (g : α → α) (p : α → Bool)
    (h : ∀ a, p (g a) = p a) :
    (l.map g).find? p = (l.find? p).map g := by
  rw [List.find?_map]
  have hpg : p ∘ g = p := funext h
  rw [hpg]

theorem find?_append_none {α : Type} (l₁ l₂ : List α) (p : α → Bool)
    (h : l₁.find? p = none) : (l₁ ++ l₂).find? p = l₂.find? p := by
  rw [List.find?_append, h]
  rfl

theorem find?_filter_keep {α : Type} (l : List α) (p q : α → Bool)
    (h : ∀ a, p a = true → q a = true) :
    (l.filter q).find? p = l.find? p := by
  induction l with
  | nil => rfl
  | cons a t ih =>
    by_cases hq : q a = true
    · rw [List.filter_cons_of_pos hq]
      by_cases hp : p a = true
      · rw [List.find?_cons_of_pos _ hp, List.find?_cons_of_pos _ hp]
      · rw [List.find?_cons_of_neg _ hp, List.find?_cons_of_neg _ hp, ih]
    · rw [List.filter_cons_of_neg hq]
      have hp : ¬ p a = true := fun hpa => hq (h a hpa)
      rw [List.find?_cons_of_neg _ hp, ih]

theorem find?_eq_none_of_any_false {α : Type} (l : List α) (p : α → Bool)
    (h : l.any p = false) : l.find? p = none := by
  apply List.find?_eq_none.mpr
  intro x hx hpx
  have hall := List.any_eq_true.mpr ⟨x, hx, hpx⟩
  rw [h] at hall
  exact Bool.noConfusion hall

theorem find?_replace_self {α : Type} (l : List α) (idf : α → String) (x x0 : α)
    (h : l.find? (fun a => idf a == idf x) = some x0) :
    (l.map fun a => if idf a == idf x then x else a).find?
      (fun a => idf a == idf x) = some x := by
  have hid : (idf x0 == idf x) = true :=
    List.find?_some (p := fun a => idf a == idf x) h
  have hg : ∀ a, (idf (if idf a == idf x then x else a) == idf x) =
      (idf a == idf x) := by
    intro a
    cases ha : (idf a == idf x) with
    | true => simp [ha]
    | false => simp [ha]
  rw [find?_map_pred_eq _ _ _ hg, h, Option.map_some']
  simp [hid]

theorem find?_replace_self_key {α : Type} (l : List α) (idf : α → String)
    (x x0 : α) (k : String) (hk : idf x = k)
    (h : l.find? (fun a => idf a == k) = some x0) :
    (l.map fun a => if idf a == idf x then x else a).find?
      (fun a => idf a == k) = some x := by
  subst hk
  exact find?_replace_self l idf x x0 h

theorem find?_replace_other {α : Type} (l : List α) (idf : α → String) (x : α)
    (k : String) (h : ¬ idf x = k) :
    (l.map fun a => if idf a == idf x then x else a).find?
      (fun a => idf a == k) = l.find? (fun a => idf a == k) := by
  have hg : ∀ a, (idf (if idf a == idf x then x else a) == k) =
      (idf a == k) := by
    intro a
    cases ha : (idf a == idf x) with
    | true =>
      have heq : idf a = idf x := by simpa using ha
      simp [ha, heq]
    | false => simp [ha]
  rw [find?_map_pred_eq _ _ _ hg]
  cases hf : l.find? (fun a => idf a == k) with
  | none => rfl
  | some a0 =>
    have ha0 : (idf a0 == k) = true :=
      List.find?_some (p := fun a => idf a == k) hf
    have ha0' : idf a0 = k := by simpa using ha0
    have hne : ¬ (idf a0 == idf x) = true := by
      simp only [beq_iff_eq]
      intro hh
      exact h (by rw [← hh, ha0'])
    rw [Option.map_some', if_neg hne]

theorem find?_erase_self {α : Type} (l : List α) (idf : α → String) (k : String) :
    (l.filter fun a => !(idf a == k)).find? (fun a => idf a == k) = none := by
  apply List.find?_eq_none.mpr
  intro x hx
  have hkeep := (List.mem_filter.mp hx).2
  intro hpx
  rw [hpx] at hkeep
  exact Bool.noConfusion hkeep

theorem find?_erase_other {α : Type} (l : List α) (idf : α → String)
    (k k' : String) (h : ¬ k = k') :
    (l.filter fun a => !(idf a == k)).find? (fun a => idf a == k') =
      l.find? (fun a => idf a == k') := by
  apply find?_filter_keep
  intro a hpa
  have ha : idf a = k' := by simpa using hpa
  simp [ha, beq_iff_eq]
  intro hh
  exact h (by rw [hh])

theorem getFramework_setFramework_self (s : SlaveState) (fw fw0 : Framework)
    (h : Slave.getFramework s fw.id = some fw0) :
    Slave.getFramework (Slave.setFramework s fw) fw.id = some fw :=
  find?_replace_self s.frameworks Framework.id fw fw0 h

theorem getFramework_setFramework_other (s : SlaveState) (fw : Framework)
    (fid : String) (h : ¬ fw.id = fid) :
    Slave.getFramework (Slave.setFramework s fw) fid =
      Slave.getFramework s fid :=
  find?_replace_other s.frameworks Framework.id fw fid h

theorem getFramework_eraseFramework_self (s : SlaveState) (fid : String) :
    Slave.getFramework (Slave.eraseFramework s fid) fid = none :=
  find?_erase_self s.frameworks Framework.id fid

theorem getFramework_eraseFramework_other (s : SlaveState) (fid fid' : String)
    (h : ¬ fid = fid') :
    Slave.getFramework (Slave.eraseFramework s fid) fid' =
      Slave.getFramework s fid' :=
  find?_erase_other s.frameworks Framework.id fid fid' h

theorem getExecutor_replace_self (fw : Framework) (e e0 : Executor)
    (h : fw.getExecutor e.id = some e0) :
    (replaceExecutor fw.executors e).find? (fun x => x.id == e.id) = some e :=
  find?_replace_self fw.executors Executor.id e e0 h

theorem getExecutor_replace_other (l : List Executor) (e : Executor)
    (eid : String) (h : ¬ e.id = eid) :
    (replaceExecutor l e).find? (fun x => x.id == eid) =
      l.find? (fun x => x.id == eid) :=
  find?_replace_other l Executor.id e eid h

theorem lookupUpdate_insertUpdate_self (l : List (Nat × StatusUpdate))
    (uuid : Nat) (u : StatusUpdate) :
    lookupUpdate (insertUpdate l uuid u) uuid = some u := by
  unfold lookupUpdate insertUpdate
  by_cases h : l.any (fun p => p.1 == uuid) = true
  · rw [if_pos h]
    have hg : ∀ a : Nat × StatusUpdate,
        ((if a.1 == uuid then (uuid, u) else a).1 == uuid) = (a.1 == uuid) := by
      intro a
      cases ha : (a.1 == uuid) with
      | true => simp [ha]
      | false => simp [ha]
    rw [find?_map_pred_eq _ _ _ hg]
    obtain ⟨x, hx, hpx⟩ := List.any_eq_true.mp h
    cases hf : l.find? (fun p => p.1 == uuid) with
    | none =>
      rw [List.find?_eq_none] at hf
      exact absurd hpx (hf x hx)
    | some a =>
      have ha : (a.1 == uuid) = true :=
        List.find?_some (p := fun q : Nat × StatusUpdate => q.1 == uuid) hf
      have ha' : a.1 = uuid := by simpa using ha
      simp [ha, ha']
  · rw [if_neg h]
    have hnone : l.find? (fun p => p.1 == uuid) = none := by
      apply find?_eq_none_of_any_false
      exact Bool.not_eq_true _ ▸ eq_false_of_ne_true h
    rw [find?_append_none _ _ _ hnone]
    simp

theorem lookupUpdate_erase_self (l : List (Nat × StatusUpdate)) (uuid : Nat) :
    lookupUpdate (l.filter fun p => !(p.1 == uuid)) uuid = none := by
  unfold lookupUpdate
  have hnone : (l.filter fun p => !(p.1 == uuid)).find?
      (fun p => p.1 == uuid) = none := by
    apply List.find?_eq_none.mpr
    intro x hx
    have hkeep := (List.mem_filter.mp hx).2
    intro hpx
    rw [hpx] at hkeep
    exact Bool.noConfusion hkeep
  rw [hnone]
  rfl

theorem containsUpdate_true_of_lookup (l : List (Nat × StatusUpdate))
    (uuid : Nat) (u : StatusUpdate) (h : lookupUpdate l uuid = some u) :
    containsUpdate l uuid = true := by
  unfold lookupUpdate at h
  unfold containsUpdate
  cases hf : l.find? (fun p => p.1 == uuid) with
  | none => rw [hf] at h; exact Option.noConfusion h
  | some a =>
    have ha : (a.1 == uuid) = true :=
      List.find?_some (p := fun q : Nat × StatusUpdate => q.1 == uuid) hf
    exact List.any_eq_true.mpr ⟨a, List.mem_of_find?_eq_some hf, ha⟩

theorem ownsTask_removeTask_self (e : Executor) (taskId : String) :
    (e.removeTask taskId).ownsTask taskId = false := by
  unfold Executor.removeTask Executor.ownsTask
  simp only [Bool.or_eq_false_iff]
  constructor
  · apply Bool.eq_false_iff.mpr
    intro hany
    obtain ⟨x, hx, hpx⟩ := List.any_eq_true.mp hany
    have hkeep := (List.mem_filter.mp hx).2
    rw [hpx] at hkeep
    exact Bool.noConfusion hkeep
  · apply Bool.eq_false_iff.mpr
    intro hany
    obtain ⟨x, hx, hpx⟩ := List.any_eq_true.mp hany
    have hkeep := (List.mem_filter.mp hx).2
    rw [hpx] at hkeep
    exact Bool.noConfusion hkeep

/-! Branch characterizations of Slave.runTaskDispatch, one per branch of
the source dispatch (slave.cpp lines 429 to 494). -/

theorem runTaskDispatch_shutdown (frameworkId : String) (framework : Framework)
    (task : TaskInfo) (s : SlaveState) (e : Executor)
    (he : framework.getExecutor (framework.getExecutorInfo task).executorId = some e)
    (hs : e.shutdown = true) :
    Slave.runTaskDispatch frameworkId framework task s =
      ({ s with nextUuid := s.nextUuid + 1 },
       [Effect.sendMaster (Message.statusUpdateMsg
         { frameworkId := frameworkId
           slaveId := s.id
           executorId := some (framework.getExecutorInfo task).executorId
           taskId := task.taskId
           state := TaskState.lost
           message := ""
           timestamp := s.clock
           uuid := s.nextUuid } none)]) := by
  simp only [Slave.runTaskDispatch, he, hs, if_true]

theorem runTaskDispatch_queue (frameworkId : String) (framework : Framework)
    (task : TaskInfo) (s : SlaveState) (e : Executor)
    (he : framework.getExecutor (framework.getExecutorInfo task).executorId = some e)
    (hs : e.shutdown = false) (hp : e.pid = none) :
    Slave.runTaskDispatch frameworkId framework task s =
      (Slave.setFramework s { framework with executors := replaceExecutor framework.executors { e with queuedTasks := insertTaskInfo e.queuedTasks task } },
       []) := by
  simp only [Slave.runTaskDispatch, he, hs, hp, Bool.false_eq_true, if_false]

theorem runTaskDispatch_forward (frameworkId : String) (framework : Framework)
    (task : TaskInfo) (s : SlaveState) (e : Executor) (epid : String)
    (he : framework.getExecutor (framework.getExecutorInfo task).executorId = some e)
    (hs : e.shutdown = false) (hp : e.pid = some epid) :
    Slave.runTaskDispatch frameworkId framework task s =
      (Slave.setFramework { s with stats := s.stats.incTask TaskState.staging }
        { framework with executors := replaceExecutor framework.executors (e.addTask task) },
       [Effect.dispatchResourcesChanged framework.id (e.addTask task).id
          (e.addTask task).isolationResources,
        Effect.sendExecutor epid
          (Message.runTaskMsg framework.info framework.id framework.pid task)]) := by
  simp only [Slave.runTaskDispatch, he, hs, hp, Bool.false_eq_true, if_false]

theorem runTaskDispatch_launch (frameworkId : String) (framework : Framework)
    (task : TaskInfo) (s : SlaveState)
    (he : framework.getExecutor (framework.getExecutorInfo task).executorId = none) :
    Slave.runTaskDispatch frameworkId framework task s =
      (Slave.setFramework { s with nextUuid := s.nextUuid + 1 } { framework with executors := replaceExecutor (framework.executors ++ [{ id := (framework.getExecutorInfo task).executorId, info := framework.getExecutorInfo task, uuid := s.nextUuid, directory := Slave.createUniqueWorkDirectory s framework.id (framework.getExecutorInfo task).executorId, pid := none, shutdown := false, queuedTasks := [], launchedTasks := [] }]) { id := (framework.getExecutorInfo task).executorId, info := framework.getExecutorInfo task, uuid := s.nextUuid, directory := Slave.createUniqueWorkDirectory s framework.id (framework.getExecutorInfo task).executorId, pid := none, shutdown := false, queuedTasks := insertTaskInfo [] task, launchedTasks := [] } },
       [Effect.dispatchLaunchExecutor framework.id (framework.getExecutorInfo task).executorId (Slave.createUniqueWorkDirectory s framework.id (framework.getExecutorInfo task).executorId) (Executor.isolationResources { id := (framework.getExecutorInfo task).executorId, info := framework.getExecutorInfo task, uuid := s.nextUuid, directory := Slave.createUniqueWorkDirectory s framework.id (framework.getExecutorInfo task).executorId, pid := none, shutdown := false, queuedTasks := insertTaskInfo [] task, launchedTasks := [] })]) := by
  simp only [Slave.runTaskDispatch, he, Framework.createExecutor]

theorem getFramework_runTaskDispatch (frameworkId : String) (framework : Framework)
    (task : TaskInfo) (s : SlaveState)
    (h : Slave.getFramework s framework.id = some framework) :
    ∃ fw', Slave.getFramework (Slave.runTaskDispatch frameworkId framework task s).1
        framework.id = some fw' ∧
      fw'.pid = framework.pid ∧ fw'.info = framework.info ∧
      fw'.updates = framework.updates := by
  cases hE : framework.getExecutor (framework.getExecutorInfo task).executorId with
  | none =>
    rw [runTaskDispatch_launch _ _ _ _ hE]
    exact ⟨_, getFramework_setFramework_self _ _ _ h, rfl, rfl, rfl⟩
  | some e =>
    cases hs : e.shutdown with
    | true =>
      rw [runTaskDispatch_shutdown _ _ _ _ _ hE hs]
      exact ⟨framework, h, rfl, rfl, rfl⟩
    | false =>
      cases hp : e.pid with
      | none =>
        rw [runTaskDispatch_queue _ _ _ _ _ hE hs hp]
        exact ⟨_, getFramework_setFramework_self _ _ _ h, rfl, rfl, rfl⟩
      | some epid =>
        rw [runTaskDispatch_forward _ _ _ _ _ _ hE hs hp]
        exact ⟨_, getFramework_setFramework_self _ _ _ h, rfl, rfl, rfl⟩

/-! Claim C8: framework interning on RunTask. -/

/-- Claim C8, counterexample to the claim as stated: a second RunTask for
the already existing framework f1 carries driver pid pid2, yet after the
handler the framework still has its original driver pid driver1, so
runTask does not update the driver PID of an existing framework. -/
theorem runTask_existing_framework_pid_unchanged :
    (Slave.getFramework
        (Slave.runTask sampleFrameworkInfo "f1" "pid2" sampleTask2
          stateAfterLaunch).1 "f1").map Framework.pid = some "driver1" ∧
    ¬ ("driver1" : String) = "pid2" := by
  constructor
  · rfl
  · decide

/-- Claim C8 (amended): on RunTask, when no framework with the given id
exists one is created carrying the given descriptor and driver pid; when
the framework already exists, runTask leaves its driver PID unchanged; the
driver PID of an existing framework is updated only by the separate
UpdateFramework handler. -/
theorem runTask_framework_interning_spec (s : SlaveState)
    (frameworkInfo : FrameworkInfo) (frameworkId pid : String)
    (task : TaskInfo) :
    (Slave.getFramework s frameworkId = none →
      (Slave.getFramework
          (Slave.runTask frameworkInfo frameworkId pid task s).1
          frameworkId).map Framework.pid = some pid ∧
      (Slave.getFramework
          (Slave.runTask frameworkInfo frameworkId pid task s).1
          frameworkId).map Framework.info = some frameworkInfo) ∧
    ((Slave.getFramework s frameworkId).isSome = true →
      (Slave.getFramework
          (Slave.runTask frameworkInfo frameworkId pid task s).1
          frameworkId).map Framework.pid =
        (Slave.getFramework s frameworkId).map Framework.pid) ∧
    ((Slave.getFramework s frameworkId).isSome = true →
      (Slave.getFramework
          (Slave.updateFramework frameworkId pid s).1
          frameworkId).map Framework.pid = some pid) := by
  refine ⟨?created, ?unchanged, ?updated⟩
  case created =>
    intro h
    have happ : Slave.getFramework { s with frameworks := s.frameworks ++ [{ id := frameworkId, info := frameworkInfo, pid := pid, executors := [], updates := [] }] } frameworkId = some { id := frameworkId, info := frameworkInfo, pid := pid, executors := [], updates := [] } := by
      show (s.frameworks ++ [({ id := frameworkId, info := frameworkInfo, pid := pid, executors := [], updates := [] } : Framework)]).find? (fun f => f.id == frameworkId) = _
      rw [find?_append_none _ _ _ h]
      exact List.find?_cons_of_pos _ (by simp)
    obtain ⟨fw', h1, h2, h3, h4⟩ :=
      getFramework_runTaskDispatch frameworkId
        { id := frameworkId, info := frameworkInfo, pid := pid, executors := [], updates := [] }
        task
        { s with frameworks := s.frameworks ++ [{ id := frameworkId, info := frameworkInfo, pid := pid, executors := [], updates := [] }] }
        happ
    dsimp only at h1 h2 h3
    have hrun : (Slave.runTask frameworkInfo frameworkId pid task s).1 =
        (Slave.runTaskDispatch frameworkId { id := frameworkId, info := frameworkInfo, pid := pid, executors := [], updates := [] } task { s with frameworks := s.frameworks ++ [{ id := frameworkId, info := frameworkInfo, pid := pid, executors := [], updates := [] }] }).1 := by
      simp only [Slave.runTask, h]
    rw [hrun, h1]
    exact ⟨by simp [h2], by simp [h3]⟩
  case unchanged =>
    intro h
    obtain ⟨fw, hfw⟩ := Option.isSome_iff_exists.mp h
    have hid : fw.id = frameworkId := by
      simpa using List.find?_some (p := fun f : Framework => f.id == frameworkId) hfw
    have hfw' : Slave.getFramework s fw.id = some fw := by rw [hid]; exact hfw
    obtain ⟨fw', h1, h2, h3, h4⟩ := getFramework_runTaskDispatch frameworkId fw task s hfw'
    have hrun : (Slave.runTask frameworkInfo frameworkId pid task s).1 =
        (Slave.runTaskDispatch frameworkId fw task s).1 := by
      simp only [Slave.runTask, hfw]
    rw [hid] at h1
    rw [hrun, h1, hfw]
    simp [h2]
  case updated =>
    intro h
    obtain ⟨fw, hfw⟩ := Option.isSome_iff_exists.mp h
    have hid : fw.id = frameworkId := by
      simpa using List.find?_some (p := fun f : Framework => f.id == frameworkId) hfw
    have hfw' : Slave.getFramework s fw.id = some fw := by rw [hid]; exact hfw
    have hrun : (Slave.updateFramework frameworkId pid s).1 =
        Slave.setFramework s { fw with pid := pid } := by
      simp only [Slave.updateFramework, hfw]
    have hself := getFramework_setFramework_self s { fw with pid := pid } fw hfw'
    dsimp only at hself
    rw [hrun, ← hid, hself]
    rfl

/-- Witness for the amended claim C8, applying it at concrete inputs: a
RunTask for the unknown framework f9 creates it with the carried
descriptor and pid; a second RunTask for the existing f1 leaves its driver
pid unchanged; UpdateFramework rewrites the pid of f1. -/
theorem runTask_framework_interning_spec_witness :
    ((Slave.getFramework
        (Slave.runTask sampleFrameworkInfo "f9" "pid9" sampleTask1
          initialState).1 "f9").map Framework.pid = some "pid9" ∧
     (Slave.getFramework
        (Slave.runTask sampleFrameworkInfo "f9" "pid9" sampleTask1
          initialState).1 "f9").map Framework.info = some sampleFrameworkInfo) ∧
    ((Slave.getFramework
        (Slave.runTask sampleFrameworkInfo "f1" "pid9" sampleTask2
          stateAfterLaunch).1 "f1").map Framework.pid =
      (Slave.getFramework stateAfterLaunch "f1").map Framework.pid) ∧
    (Slave.getFramework
        (Slave.updateFramework "f1" "pid9" stateAfterLaunch).1 "f1").map
      Framework.pid = some "pid9" :=
  ⟨(runTask_framework_interning_spec initialState sampleFrameworkInfo "f9"
      "pid9" sampleTask1).1 (by rfl),
   (runTask_framework_interning_spec stateAfterLaunch sampleFrameworkInfo "f1"
      "pid9" sampleTask2).2.1 (by rfl),
   (runTask_framework_interning_spec stateAfterLaunch sampleFrameworkInfo "f1"
      "pid9" sampleTask2).2.2 (by rfl)⟩

/-! Claim C7: KillTask for a queued task on an unregistered executor. -/

/-- Claim C7, counterexample to the claim as stated: killing queued task
t1 of the unregistered executor e1 sends a synthetic KILLED update (uuid
1) to the master, but the uuid is not recorded in the updates map of the
framework (which stays empty) and no status update retry timeout is among
the produced effects, so the update is not subject to the retry and
acknowledgement engine. -/
theorem killTask_killed_update_not_tracked :
    (Slave.killTask "f1" "t1" stateAfterLaunch).2 =
      [Effect.dispatchResourcesChanged "f1" "e1" 0,
       Effect.sendMaster (Message.statusUpdateMsg
         { frameworkId := "f1"
           slaveId := "s7"
           executorId := some "e1"
           taskId := "t1"
           state := TaskState.killed
           message := ""
           timestamp := 0
           uuid := 1 } none)] ∧
    (Slave.getFramework (Slave.killTask "f1" "t1" stateAfterLaunch).1
        "f1").map Framework.updates = some [] :=
  ⟨rfl, rfl⟩

/-- Claim C7 (amended): on KillTask where the framework and the owning
executor exist but the executor has not registered (pid unset), the task
is removed from queuedTasks, resourcesChanged is dispatched to the
isolation module, and a synthetic terminal KILLED update is sent to the
master; its uuid is not recorded in framework.updates and no retry timeout
is armed, so the update is outside the retry and acknowledgement engine. -/
theorem killTask_unregistered_executor_spec (s : SlaveState)
    (frameworkId taskId : String) (fw : Framework) (e : Executor)
    (hfw : Slave.getFramework s frameworkId = some fw)
    (he : fw.getExecutorByTask taskId = some e)
    (hpid : e.pid = none) :
    (Slave.killTask frameworkId taskId s).2 =
      [Effect.dispatchResourcesChanged fw.id (e.removeTask taskId).id
         (e.removeTask taskId).isolationResources,
       Effect.sendMaster (Message.statusUpdateMsg
         { frameworkId := fw.id
           slaveId := s.id
           executorId := some e.id
           taskId := taskId
           state := TaskState.killed
           message := ""
           timestamp := s.clock
           uuid := s.nextUuid } none)] ∧
    ∃ fw', Slave.getFramework (Slave.killTask frameworkId taskId s).1
        frameworkId = some fw' ∧
      fw'.updates = fw.updates ∧
      fw'.getExecutor e.id = some (e.removeTask taskId) ∧
      (e.removeTask taskId).ownsTask taskId = false := by
  have hid : fw.id = frameworkId := by
    simpa using List.find?_some (p := fun f : Framework => f.id == frameworkId) hfw
  have hmem : e ∈ fw.executors :=
    List.mem_of_find?_eq_some he
  have hESome : (fw.executors.find? (fun x => x.id == e.id)).isSome = true :=
    List.find?_isSome.mpr ⟨e, hmem, by simp⟩
  obtain ⟨e0, he0⟩ := Option.isSome_iff_exists.mp hESome
  constructor
  · simp only [Slave.killTask, hfw, he, hpid, Slave.setFramework]
  · have hfw' : Slave.getFramework s fw.id = some fw := by rw [hid]; exact hfw
    refine ⟨{ fw with executors := replaceExecutor fw.executors (e.removeTask taskId) },
      ?hlookup, rfl, ?hexec, ownsTask_removeTask_self e taskId⟩
    case hlookup =>
      simp only [Slave.killTask, hfw, he, hpid]
      rw [← hid]
      exact getFramework_setFramework_self s
        { fw with executors := replaceExecutor fw.executors (e.removeTask taskId) } fw hfw'
    case hexec =>
      exact find?_replace_self fw.executors Executor.id (e.removeTask taskId) e0 he0

/-- Witness for the amended claim C7: killing the queued task t1 on the
unregistered executor e1 of framework f1. -/
theorem killTask_unregistered_executor_spec_witness :
    (Slave.killTask "f1" "t1" stateAfterLaunch).2 =
      [Effect.dispatchResourcesChanged launchedFramework.id
         (launchedExecutor.removeTask "t1").id
         (launchedExecutor.removeTask "t1").isolationResources,
       Effect.sendMaster (Message.statusUpdateMsg
         { frameworkId := launchedFramework.id
           slaveId := stateAfterLaunch.id
           executorId := some launchedExecutor.id
           taskId := "t1"
           state := TaskState.killed
           message := ""
           timestamp := stateAfterLaunch.clock
           uuid := stateAfterLaunch.nextUuid } none)] ∧
    ∃ fw', Slave.getFramework (Slave.killTask "f1" "t1" stateAfterLaunch).1
        "f1" = some fw' ∧
      fw'.updates = launchedFramework.updates ∧
      fw'.getExecutor launchedExecutor.id =
        some (launchedExecutor.removeTask "t1") ∧
      (launchedExecutor.removeTask "t1").ownsTask "t1" = false :=
  killTask_unregistered_executor_spec stateAfterLaunch "f1" "t1"
    launchedFramework launchedExecutor (by rfl) (by rfl) (by rfl)

/-! Claim C9: stale firings of shutdownExecutorTimeout. -/

/-- Claim C9, counterexample to the claim as stated: in the reachable
state stateAfterExitQueued the framework f1 exists and executor e1 no
longer exists, so by the claim a firing of shutdownExecutorTimeout for
f1, e1 is a no-op; instead the firing erases the framework record, which
still holds an unacknowledged update, from the registry. -/
theorem shutdownExecutorTimeout_destroys_framework :
    Slave.getFramework stateAfterExitQueued "f1" = some exitQueuedFramework ∧
    exitQueuedFramework.getExecutor "e1" = none ∧
    ¬ exitQueuedFramework.updates = [] ∧
    (Slave.shutdownExecutorTimeout "f1" "e1" 0
        stateAfterExitQueued).1.frameworks = [] ∧
    ¬ stateAfterExitQueued.frameworks = [] := by
  refine ⟨rfl, rfl, ?_, rfl, ?_⟩ <;> decide

/-- Claim C9 (amended): a firing of shutdownExecutorTimeout whose
framework exists but whose executor is gone or carries a different uuid
dispatches no killExecutor and schedules no garbage collection; if the
framework still has at least one executor the firing leaves the state
completely unchanged, but if the framework has no executors left the
firing erases the framework record itself, pending updates or not. -/
theorem shutdownExecutorTimeout_stale_spec (s : SlaveState)
    (frameworkId executorId : String) (uuid : Nat) (fw : Framework)
    (hfw : Slave.getFramework s frameworkId = some fw)
    (hstale : fw.getExecutor executorId = none ∨
      ∃ e, fw.getExecutor executorId = some e ∧ ¬ e.uuid = uuid) :
    (¬ fw.executors = [] →
      Slave.shutdownExecutorTimeout frameworkId executorId uuid s = (s, [])) ∧
    (fw.executors = [] →
      Slave.shutdownExecutorTimeout frameworkId executorId uuid s =
        (Slave.eraseFramework s frameworkId, [])) := by
  have hkill : Slave.shutdownExecutorTimeout frameworkId executorId uuid s =
      (if fw.executors.length == 0 then
        (Slave.eraseFramework s frameworkId, ([] : List Effect))
      else (s, [])) := by
    rcases hstale with hnone | ⟨e, he, hne⟩
    · simp only [Slave.shutdownExecutorTimeout, hfw, hnone]
    · have hneb : (e.uuid == uuid) = false := by
        simp only [beq_eq_false_iff_ne, ne_eq]
        exact hne
      simp only [Slave.shutdownExecutorTimeout, hfw, he, hneb,
        Bool.false_eq_true, if_false]
  constructor
  · intro hne
    have hlen : (fw.executors.length == 0) = false := by
      cases hx : fw.executors with
      | nil => exact absurd hx hne
      | cons a t => simp
    rw [hkill, hlen]
    simp
  · intro hnil
    have hlen : (fw.executors.length == 0) = true := by rw [hnil]; simp
    rw [hkill, hlen]
    simp

/-- Witness for the amended claim C9: a stale firing with a mismatched
uuid on the live executor e1 is a full no-op; a stale firing after e1 was
destroyed erases the framework f1. -/
theorem shutdownExecutorTimeout_stale_spec_witness :
    Slave.shutdownExecutorTimeout "f1" "e1" 77 stateAfterLaunch =
      (stateAfterLaunch, []) ∧
    Slave.shutdownExecutorTimeout "f1" "e1" 0 stateAfterExitQueued =
      (Slave.eraseFramework stateAfterExitQueued "f1", []) :=
  ⟨(shutdownExecutorTimeout_stale_spec stateAfterLaunch "f1" "e1" 77
      launchedFramework (by rfl)
      (Or.inr ⟨launchedExecutor, by rfl, by decide⟩)).1 (by decide),
   (shutdownExecutorTimeout_stale_spec stateAfterExitQueued "f1" "e1" 0
      exitQueuedFramework (by rfl) (Or.inl (by rfl))).2 (by rfl)⟩

/-! Claim C1: framework liveness invariant. -/

/-- Claim C1, counterexample to the claim as stated: the state
stateAfterExitNoTasks is reached from the initial state by three handlers
(runTask, killTask, executorExited); executorExited destroyed the last
executor of f1 and f1 has no pending updates, yet the framework record is
still present in the registry with zero executors and an empty updates
map, so the invariant does not hold after every handler. -/
theorem executorExited_leaves_empty_framework_present :
    (Slave.getFramework stateAfterExitNoTasks "f1").map
        (fun fw => (fw.executors, fw.updates)) = some ([], []) := by
  rfl

/-- Claim C1 (amended): the framework liveness check lives only in
statusUpdateAcknowledgement: when an acknowledgement erases a pending
update of an existing framework, the framework is destroyed exactly when
it is left with zero executors and an empty updates map, so after the
handler no such empty framework remains under that id; executorExited can
leave a framework with zero executors and empty updates in the registry
(see the counterexample), and shutdownExecutorTimeout can destroy a
framework still referenced by pending updates. -/
theorem statusUpdateAcknowledgement_destroys_idle_framework (s : SlaveState)
    (slaveId frameworkId taskId : String) (uuid : Nat) (fw : Framework)
    (hfw : Slave.getFramework s frameworkId = some fw)
    (hc : containsUpdate fw.updates uuid = true) :
    ¬ ∃ fw', Slave.getFramework
        (Slave.statusUpdateAcknowledgement slaveId frameworkId taskId uuid
          s).1 frameworkId = some fw' ∧
      fw'.executors = [] ∧ fw'.updates = [] := by
  rintro ⟨fw', hfw', hex, hup⟩
  have hid : fw.id = frameworkId := by
    simpa using List.find?_some (p := fun f : Framework => f.id == frameworkId) hfw
  have hfw0 : Slave.getFramework s fw.id = some fw := by rw [hid]; exact hfw
  simp only [Slave.statusUpdateAcknowledgement, hfw, hc, if_true] at hfw'
  split at hfw'
  next hcond =>
    dsimp only at hfw'
    rw [← hid] at hfw'
    rw [getFramework_eraseFramework_self] at hfw'
    exact Option.noConfusion hfw'
  next hcond =>
    dsimp only at hfw'
    have hself := getFramework_setFramework_self s
      { fw with updates := fw.updates.filter (fun p => !(p.1 == uuid)) } fw hfw0
    dsimp only at hself
    rw [← hid] at hfw'
    rw [hself] at hfw'
    cases Option.some.inj hfw'
    have hex0 : fw.executors = [] := hex
    have hup0 : fw.updates.filter (fun p => !(p.1 == uuid)) = [] := hup
    apply hcond
    rw [hex0, hup0]
    rfl

/-- Witness for the amended claim C1: acknowledging the pending update of
f1 in stateAfterExitQueued (zero executors, one pending update) leaves no
empty framework record under f1. -/
theorem statusUpdateAcknowledgement_destroys_idle_framework_witness :
    ¬ ∃ fw', Slave.getFramework
        (Slave.statusUpdateAcknowledgement "s7" "f1" "t1" 1
          stateAfterExitQueued).1 "f1" = some fw' ∧
      fw'.executors = [] ∧ fw'.updates = [] :=
  statusUpdateAcknowledgement_destroys_idle_framework stateAfterExitQueued
    "s7" "f1" "t1" 1 exitQueuedFramework (by rfl) (by rfl)

/-! Helper lemmas on statistics counters and task-map operations. -/

theorem tasksCounter_valid_update (st : Stats) (n : Nat) (ts : TaskState) :
    Stats.tasksCounter { st with validStatusUpdates := n } ts =
      st.tasksCounter ts := by
  cases ts <;> rfl

theorem tasksCounter_incTask_self (st : Stats) (ts : TaskState) :
    (st.incTask ts).tasksCounter ts = st.tasksCounter ts + 1 := by
  cases ts <;> rfl

theorem validStatusUpdates_incTask (st : Stats) (ts : TaskState) :
    (st.incTask ts).validStatusUpdates = st.validStatusUpdates := by
  cases ts <;> rfl

theorem launched_removeTask_any_false (e : Executor) (taskId : String) :
    ((e.removeTask taskId).launchedTasks.any
      (fun t => t.taskId == taskId)) = false := by
  apply Bool.eq_false_iff.mpr
  intro hany
  obtain ⟨x, hx, hpx⟩ := List.any_eq_true.mp hany
  have hkeep := (List.mem_filter.mp hx).2
  rw [hpx] at hkeep
  exact Bool.noConfusion hkeep

theorem updateTaskState_sets_state (e : Executor) (taskId : String)
    (st : TaskState) :
    ∀ t ∈ (e.updateTaskState taskId st).launchedTasks,
      t.taskId = taskId → t.state = st := by
  intro t ht htid
  unfold Executor.updateTaskState at ht
  simp only [List.mem_map] at ht
  obtain ⟨pre, hpre, heq⟩ := ht
  by_cases hb : (pre.taskId == taskId) = true
  · rw [if_pos hb] at heq
    rw [← heq]
  · rw [if_neg hb] at heq
    subst heq
    exact absurd (by simp [htid]) hb

/-! Helper lemmas on the addTask fold and the staging-counter fold of
registerExecutor. -/

theorem foldl_addTask_id (l : List TaskInfo) (e : Executor) :
    (l.foldl (fun x t => x.addTask t) e).id = e.id := by
  induction l generalizing e with
  | nil => rfl
  | cons a t ih => rw [List.foldl_cons, ih]; rfl

theorem foldl_addTask_info (l : List TaskInfo) (e : Executor) :
    (l.foldl (fun x t => x.addTask t) e).info = e.info := by
  induction l generalizing e with
  | nil => rfl
  | cons a t ih => rw [List.foldl_cons, ih]; rfl

theorem foldl_addTask_pid (l : List TaskInfo) (e : Executor) :
    (l.foldl (fun x t => x.addTask t) e).pid = e.pid := by
  induction l generalizing e with
  | nil => rfl
  | cons a t ih => rw [List.foldl_cons, ih]; rfl

theorem addTask_mem_staging (e : Executor) (t : TaskInfo) :
    ∃ lt ∈ (e.addTask t).launchedTasks,
      lt.taskId = t.taskId ∧ lt.state = TaskState.staging := by
  unfold Executor.addTask insertTask
  by_cases h : (e.launchedTasks.any fun x =>
      x.taskId == ({ taskId := t.taskId, hasExecutorId := t.executorOpt.isSome, state := TaskState.staging, resources := t.resources } : Task).taskId) = true
  · rw [if_pos h]
    obtain ⟨x, hx, hpx⟩ := List.any_eq_true.mp h
    exact ⟨_, List.mem_map.mpr ⟨x, hx, by rw [if_pos hpx]⟩, rfl, rfl⟩
  · rw [if_neg h]
    exact ⟨_, List.mem_append_right _ (List.mem_singleton.mpr rfl), rfl, rfl⟩

theorem addTask_keeps_staging (e : Executor) (t : TaskInfo) (tid : String)
    (h : ∃ lt ∈ e.launchedTasks, lt.taskId = tid ∧
      lt.state = TaskState.staging) :
    ∃ lt ∈ (e.addTask t).launchedTasks, lt.taskId = tid ∧
      lt.state = TaskState.staging := by
  obtain ⟨lt, hmem, hid, hst⟩ := h
  unfold Executor.addTask insertTask
  by_cases hany : (e.launchedTasks.any fun x =>
      x.taskId == ({ taskId := t.taskId, hasExecutorId := t.executorOpt.isSome, state := TaskState.staging, resources := t.resources } : Task).taskId) = true
  · rw [if_pos hany]
    by_cases hb : (lt.taskId == t.taskId) = true
    · refine ⟨_, List.mem_map.mpr ⟨lt, hmem, by rw [if_pos hb]⟩, ?_, rfl⟩
      have : lt.taskId = t.taskId := by simpa using hb
      rw [← this, hid]
    · exact ⟨lt, List.mem_map.mpr ⟨lt, hmem, by rw [if_neg hb]⟩, hid, hst⟩
  · rw [if_neg hany]
    exact ⟨lt, List.mem_append_left _ hmem, hid, hst⟩

theorem foldl_addTask_mem (l : List TaskInfo) (e : Executor) :
    ∀ t ∈ l, ∃ lt ∈ (l.foldl (fun x t => x.addTask t) e).launchedTasks,
      lt.taskId = t.taskId ∧ lt.state = TaskState.staging := by
  induction l generalizing e with
  | nil => intro t ht; exact absurd ht (List.not_mem_nil t)
  | cons a rest ih =>
    intro t ht
    rw [List.foldl_cons]
    rcases List.mem_cons.mp ht with heq | hrest
    · subst heq
      have hbase := addTask_mem_staging e t
      have keep : ∀ (l' : List TaskInfo) (e' : Executor),
          (∃ lt ∈ e'.launchedTasks, lt.taskId = t.taskId ∧
            lt.state = TaskState.staging) →
          ∃ lt ∈ (l'.foldl (fun x t => x.addTask t) e').launchedTasks,
            lt.taskId = t.taskId ∧ lt.state = TaskState.staging := by
        intro l'
        induction l' with
        | nil => intro e' h; exact h
        | cons b rest' ih' =>
          intro e' h
          rw [List.foldl_cons]
          exact ih' _ (addTask_keeps_staging e' b t.taskId h)
      exact keep rest (e.addTask t) hbase
    · exact ih (e.addTask a) t hrest

theorem statsFold_frameworks (l : List TaskInfo) (s : SlaveState) :
    (l.foldl (fun st _ =>
      { st with stats := st.stats.incTask TaskState.staging }) s).frameworks =
      s.frameworks := by
  induction l generalizing s with
  | nil => rfl
  | cons a t ih => rw [List.foldl_cons, ih]

theorem statsFold_id (l : List TaskInfo) (s : SlaveState) :
    (l.foldl (fun st _ =>
      { st with stats := st.stats.incTask TaskState.staging }) s).id =
      s.id := by
  induction l generalizing s with
  | nil => rfl
  | cons a t ih => rw [List.foldl_cons, ih]

theorem statsFold_staging (l : List TaskInfo) (s : SlaveState) :
    (l.foldl (fun st _ =>
      { st with stats := st.stats.incTask TaskState.staging })
        s).stats.stagingTasks =
      s.stats.stagingTasks + l.length := by
  induction l generalizing s with
  | nil => rfl
  | cons a t ih =>
    rw [List.foldl_cons, ih]
    show s.stats.stagingTasks + 1 + t.length = _
    rw [List.length_cons]
    omega

/-! Claim C6: the inbound status update path. -/

/-- Claim C6: on StatusUpdate from an executor, when the framework exists
and an executor owning the task id exists: the state of the task (in the
executor the lookup found) is set to the state of the update; if that
state is terminal the task is removed from launchedTasks and
resourcesChanged is dispatched to the isolation backend; the update is
forwarded to the master stamped with the own pid of the agent; the update
is recorded under its uuid in framework.updates; a statusUpdateTimeout is
armed after STATUS_UPDATE_RETRY_INTERVAL; and the per-state task counter
and validStatusUpdates are incremented. -/
theorem statusUpdate_spec (s : SlaveState) (u : StatusUpdate)
    (fw : Framework) (e : Executor)
    (hfw : Slave.getFramework s u.frameworkId = some fw)
    (he : fw.getExecutorByTask u.taskId = some e) :
    ((Slave.statusUpdate u s).2 =
      (if isTerminalTaskState u.state then
        [Effect.dispatchResourcesChanged fw.id ((e.updateTaskState u.taskId u.state).removeTask u.taskId).id ((e.updateTaskState u.taskId u.state).removeTask u.taskId).isolationResources]
      else []) ++
      [Effect.sendMaster (Message.statusUpdateMsg u (some s.selfPid)),
       Effect.scheduleStatusUpdateTimeout STATUS_UPDATE_RETRY_INTERVAL_SECONDS
         fw.id u.uuid]) ∧
    (∃ fw', Slave.getFramework (Slave.statusUpdate u s).1 u.frameworkId =
        some fw' ∧
      lookupUpdate fw'.updates u.uuid = some u ∧
      ∃ e', fw'.getExecutor e.id = some e' ∧
        (isTerminalTaskState u.state = true →
          (e'.launchedTasks.any (fun t => t.taskId == u.taskId)) = false) ∧
        (isTerminalTaskState u.state = false →
          ∀ t ∈ e'.launchedTasks, t.taskId = u.taskId → t.state = u.state)) ∧
    (Slave.statusUpdate u s).1.stats.tasksCounter u.state =
      s.stats.tasksCounter u.state + 1 ∧
    (Slave.statusUpdate u s).1.stats.validStatusUpdates =
      s.stats.validStatusUpdates + 1 := by
  have hid : fw.id = u.frameworkId := by
    simpa using
      List.find?_some (p := fun f : Framework => f.id == u.frameworkId) hfw
  have hfw0 : Slave.getFramework s fw.id = some fw := by rw [hid]; exact hfw
  have hmem : e ∈ fw.executors := List.mem_of_find?_eq_some he
  have hESome : (fw.executors.find? (fun x => x.id == e.id)).isSome = true :=
    List.find?_isSome.mpr ⟨e, hmem, by simp⟩
  obtain ⟨e0, he0⟩ := Option.isSome_iff_exists.mp hESome
  cases ht : isTerminalTaskState u.state with
  | true =>
    refine ⟨?_, ?_, ?_, ?_⟩
    · simp only [Slave.statusUpdate, hfw, he, ht, Slave.setFramework, if_true]
    · refine ⟨{ fw with executors := replaceExecutor fw.executors ((e.updateTaskState u.taskId u.state).removeTask u.taskId), updates := insertUpdate fw.updates u.uuid u }, ?_, lookupUpdate_insertUpdate_self _ _ _, (e.updateTaskState u.taskId u.state).removeTask u.taskId, ?_, fun _ => launched_removeTask_any_false _ _, fun hf => Bool.noConfusion hf⟩
      · simp only [Slave.statusUpdate, hfw, he, ht, if_true]
        rw [← hid]
        exact getFramework_setFramework_self s
          { fw with executors := replaceExecutor fw.executors ((e.updateTaskState u.taskId u.state).removeTask u.taskId), updates := insertUpdate fw.updates u.uuid u }
          fw hfw0
      · exact find?_replace_self fw.executors Executor.id
          ((e.updateTaskState u.taskId u.state).removeTask u.taskId) e0 he0
    · simp only [Slave.statusUpdate, hfw, he, ht, Slave.setFramework, if_true]
      rw [tasksCounter_valid_update, tasksCounter_incTask_self]
    · simp only [Slave.statusUpdate, hfw, he, ht, Slave.setFramework, if_true]
      rw [validStatusUpdates_incTask]
  | false =>
    refine ⟨?_, ?_, ?_, ?_⟩
    · simp only [Slave.statusUpdate, hfw, he, ht, Slave.setFramework,
        Bool.false_eq_true, if_false]
    · refine ⟨{ fw with executors := replaceExecutor fw.executors (e.updateTaskState u.taskId u.state), updates := insertUpdate fw.updates u.uuid u }, ?_, lookupUpdate_insertUpdate_self _ _ _, e.updateTaskState u.taskId u.state, ?_, fun hf => Bool.noConfusion hf, fun _ => updateTaskState_sets_state e u.taskId u.state⟩
      · simp only [Slave.statusUpdate, hfw, he, ht, Bool.false_eq_true, if_false]
        rw [← hid]
        exact getFramework_setFramework_self s
          { fw with executors := replaceExecutor fw.executors (e.updateTaskState u.taskId u.state), updates := insertUpdate fw.updates u.uuid u }
          fw hfw0
      · exact find?_replace_self fw.executors Executor.id
          (e.updateTaskState u.taskId u.state) e0 he0
    · simp only [Slave.statusUpdate, hfw, he, ht, Slave.setFramework,
        Bool.false_eq_true, if_false]
      rw [tasksCounter_valid_update, tasksCounter_incTask_self]
    · simp only [Slave.statusUpdate, hfw, he, ht, Slave.setFramework,
        Bool.false_eq_true, if_false]
      rw [validStatusUpdates_incTask]

/-- Witness for claim C6: the RUNNING update for t1 processed in
stateAfterRegister. -/
theorem statusUpdate_spec_witness :
    ((Slave.statusUpdate sampleRunningUpdate stateAfterRegister).2 =
      (if isTerminalTaskState sampleRunningUpdate.state then
        [Effect.dispatchResourcesChanged registeredFramework.id ((registeredExecutor.updateTaskState sampleRunningUpdate.taskId sampleRunningUpdate.state).removeTask sampleRunningUpdate.taskId).id ((registeredExecutor.updateTaskState sampleRunningUpdate.taskId sampleRunningUpdate.state).removeTask sampleRunningUpdate.taskId).isolationResources]
      else []) ++
      [Effect.sendMaster (Message.statusUpdateMsg sampleRunningUpdate
         (some stateAfterRegister.selfPid)),
       Effect.scheduleStatusUpdateTimeout STATUS_UPDATE_RETRY_INTERVAL_SECONDS
         registeredFramework.id sampleRunningUpdate.uuid]) ∧
    (∃ fw', Slave.getFramework
        (Slave.statusUpdate sampleRunningUpdate stateAfterRegister).1
        sampleRunningUpdate.frameworkId = some fw' ∧
      lookupUpdate fw'.updates sampleRunningUpdate.uuid =
        some sampleRunningUpdate ∧
      ∃ e', fw'.getExecutor registeredExecutor.id = some e' ∧
        (isTerminalTaskState sampleRunningUpdate.state = true →
          (e'.launchedTasks.any
            (fun t => t.taskId == sampleRunningUpdate.taskId)) = false) ∧
        (isTerminalTaskState sampleRunningUpdate.state = false →
          ∀ t ∈ e'.launchedTasks, t.taskId = sampleRunningUpdate.taskId →
            t.state = sampleRunningUpdate.state)) ∧
    (Slave.statusUpdate sampleRunningUpdate stateAfterRegister).1.stats.tasksCounter
        sampleRunningUpdate.state =
      stateAfterRegister.stats.tasksCounter sampleRunningUpdate.state + 1 ∧
    (Slave.statusUpdate sampleRunningUpdate
        stateAfterRegister).1.stats.validStatusUpdates =
      stateAfterRegister.stats.validStatusUpdates + 1 :=
  statusUpdate_spec stateAfterRegister sampleRunningUpdate
    registeredFramework registeredExecutor (by rfl) (by rfl)

/-! Claim C2: the status update retry and acknowledgement round trip. -/

/-- Claim C2: a status update recorded by Slave.statusUpdate is stored in
the updates map of its framework under its uuid, and processing a
StatusUpdateAcknowledgement carrying the same framework id and uuid
removes that uuid from the updates map (no framework under that id keeps
the uuid recorded afterwards); and in any state in which a uuid is still
recorded for a framework, a firing of statusUpdateTimeout finds it,
resends the stored update to the master stamped with the own pid of the
agent, leaves the state unchanged, and re-arms another timeout for the
same framework id and uuid at STATUS_UPDATE_RETRY_INTERVAL, so absent an
acknowledgement the retry fires at least once per interval. -/
theorem statusUpdate_ack_erases_and_timeout_resends
    (s : SlaveState) (u : StatusUpdate) (fw : Framework) (e : Executor)
    (slaveId taskId : String) (s' : SlaveState) (fw' : Framework)
    (u' : StatusUpdate)
    (hfw : Slave.getFramework s u.frameworkId = some fw)
    (he : fw.getExecutorByTask u.taskId = some e)
    (hfw' : Slave.getFramework s' u.frameworkId = some fw')
    (hlk' : lookupUpdate fw'.updates u.uuid = some u') :
    (∃ fw1, Slave.getFramework (Slave.statusUpdate u s).1 u.frameworkId =
        some fw1 ∧
      lookupUpdate fw1.updates u.uuid = some u ∧
      ¬ ∃ fw2, Slave.getFramework
          (Slave.statusUpdateAcknowledgement slaveId u.frameworkId taskId
            u.uuid (Slave.statusUpdate u s).1).1 u.frameworkId = some fw2 ∧
        (lookupUpdate fw2.updates u.uuid).isSome = true) ∧
    Slave.statusUpdateTimeout u.frameworkId u.uuid s' =
      (s', [Effect.sendMaster (Message.statusUpdateMsg u' (some s'.selfPid)),
            Effect.scheduleStatusUpdateTimeout
              STATUS_UPDATE_RETRY_INTERVAL_SECONDS fw'.id u.uuid]) := by
  have hid : fw.id = u.frameworkId := by
    simpa using
      List.find?_some (p := fun f : Framework => f.id == u.frameworkId) hfw
  have hfw0 : Slave.getFramework s fw.id = some fw := by rw [hid]; exact hfw
  constructor
  · have key : ∀ fw1 : Framework,
        Slave.getFramework (Slave.statusUpdate u s).1 u.frameworkId =
          some fw1 →
        lookupUpdate fw1.updates u.uuid = some u →
        ¬ ∃ fw2, Slave.getFramework
            (Slave.statusUpdateAcknowledgement slaveId u.frameworkId taskId
              u.uuid (Slave.statusUpdate u s).1).1 u.frameworkId = some fw2 ∧
          (lookupUpdate fw2.updates u.uuid).isSome = true := by
      intro fw1 hfw1 hlk1
      rintro ⟨fw2, hfw2, hsome2⟩
      have hid1 : fw1.id = u.frameworkId := by
        simpa using
          List.find?_some (p := fun f : Framework => f.id == u.frameworkId) hfw1
      have hfw10 : Slave.getFramework (Slave.statusUpdate u s).1 fw1.id =
          some fw1 := by rw [hid1]; exact hfw1
      have hc : containsUpdate fw1.updates u.uuid = true :=
        containsUpdate_true_of_lookup _ _ _ hlk1
      simp only [Slave.statusUpdateAcknowledgement, hfw1, hc, if_true] at hfw2
      split at hfw2
      next hcond =>
        dsimp only at hfw2
        rw [← hid1] at hfw2
        rw [getFramework_eraseFramework_self] at hfw2
        exact Option.noConfusion hfw2
      next hcond =>
        dsimp only at hfw2
        have hself := getFramework_setFramework_self
          (Slave.statusUpdate u s).1
          { fw1 with updates := fw1.updates.filter (fun p => !(p.1 == u.uuid)) }
          fw1 hfw10
        dsimp only at hself
        rw [← hid1] at hfw2
        rw [hself] at hfw2
        cases Option.some.inj hfw2
        rw [lookupUpdate_erase_self] at hsome2
        exact Bool.noConfusion hsome2
    have record : ∃ fw1,
        Slave.getFramework (Slave.statusUpdate u s).1 u.frameworkId =
          some fw1 ∧
        lookupUpdate fw1.updates u.uuid = some u := by
      cases ht : isTerminalTaskState u.state with
      | true =>
        refine ⟨{ fw with executors := replaceExecutor fw.executors ((e.updateTaskState u.taskId u.state).removeTask u.taskId), updates := insertUpdate fw.updates u.uuid u }, ?_, lookupUpdate_insertUpdate_self _ _ _⟩
        simp only [Slave.statusUpdate, hfw, he, ht, if_true]
        rw [← hid]
        exact getFramework_setFramework_self s
          { fw with executors := replaceExecutor fw.executors ((e.updateTaskState u.taskId u.state).removeTask u.taskId), updates := insertUpdate fw.updates u.uuid u }
          fw hfw0
      | false =>
        refine ⟨{ fw with executors := replaceExecutor fw.executors (e.updateTaskState u.taskId u.state), updates := insertUpdate fw.updates u.uuid u }, ?_, lookupUpdate_insertUpdate_self _ _ _⟩
        simp only [Slave.statusUpdate, hfw, he, ht, Bool.false_eq_true,
          if_false]
        rw [← hid]
        exact getFramework_setFramework_self s
          { fw with executors := replaceExecutor fw.executors (e.updateTaskState u.taskId u.state), updates := insertUpdate fw.updates u.uuid u }
          fw hfw0
    obtain ⟨fw1, hfw1, hlk1⟩ := record
    exact ⟨fw1, hfw1, hlk1, key fw1 hfw1 hlk1⟩
  · simp only [Slave.statusUpdateTimeout, hfw', hlk']

/-- Witness for claim C2: the RUNNING update recorded in
stateAfterRegister is erased by its acknowledgement, and in
stateAfterUpdate a timeout firing resends it and re-arms itself. -/
theorem statusUpdate_ack_erases_and_timeout_resends_witness :
    (∃ fw1, Slave.getFramework
        (Slave.statusUpdate sampleRunningUpdate stateAfterRegister).1
        sampleRunningUpdate.frameworkId = some fw1 ∧
      lookupUpdate fw1.updates sampleRunningUpdate.uuid =
        some sampleRunningUpdate ∧
      ¬ ∃ fw2, Slave.getFramework
          (Slave.statusUpdateAcknowledgement "s7"
            sampleRunningUpdate.frameworkId "t1" sampleRunningUpdate.uuid
            (Slave.statusUpdate sampleRunningUpdate stateAfterRegister).1).1
          sampleRunningUpdate.frameworkId = some fw2 ∧
        (lookupUpdate fw2.updates sampleRunningUpdate.uuid).isSome = true) ∧
    Slave.statusUpdateTimeout sampleRunningUpdate.frameworkId
        sampleRunningUpdate.uuid stateAfterUpdate =
      (stateAfterUpdate,
       [Effect.sendMaster (Message.statusUpdateMsg sampleRunningUpdate
          (some stateAfterUpdate.selfPid)),
        Effect.scheduleStatusUpdateTimeout
          STATUS_UPDATE_RETRY_INTERVAL_SECONDS updatedFramework.id
          sampleRunningUpdate.uuid]) :=
  statusUpdate_ack_erases_and_timeout_resends stateAfterRegister
    sampleRunningUpdate registeredFramework registeredExecutor "s7" "t1"
    stateAfterUpdate updatedFramework sampleRunningUpdate
    (by rfl) (by rfl) (by rfl) (by rfl)

/-! Claim C3: the executor registration handshake. -/

/-- Claim C3: on RegisterExecutor, if the framework is unknown, the
executor is unknown, the pid of the executor is already set, or the
executor is marked shutdown, the agent replies ShutdownExecutor and
changes no registry state; otherwise it sets the pid of the executor to
the sender, moves every queued task into launchedTasks via addTask (each
entering in state TASK_STAGING), dispatches resourcesChanged, sends
ExecutorRegistered before any RunTask message, sends one RunTask message
per previously queued task in the order the tasks were queued, leaves
queuedTasks empty, and increments the STAGING counter once per queued
task. -/
theorem registerExecutor_spec (senderPid frameworkId executorId : String)
    (s : SlaveState) (fw : Framework) (e : Executor) :
    (Slave.getFramework s frameworkId = none →
      Slave.registerExecutor senderPid frameworkId executorId s =
        (s, [Effect.replyToSender Message.shutdownExecutorMsg])) ∧
    (Slave.getFramework s frameworkId = some fw →
      fw.getExecutor executorId = none →
      Slave.registerExecutor senderPid frameworkId executorId s =
        (s, [Effect.replyToSender Message.shutdownExecutorMsg])) ∧
    (Slave.getFramework s frameworkId = some fw →
      fw.getExecutor executorId = some e →
      e.pid.isSome = true →
      Slave.registerExecutor senderPid frameworkId executorId s =
        (s, [Effect.replyToSender Message.shutdownExecutorMsg])) ∧
    (Slave.getFramework s frameworkId = some fw →
      fw.getExecutor executorId = some e →
      e.pid = none →
      e.shutdown = true →
      Slave.registerExecutor senderPid frameworkId executorId s =
        (s, [Effect.replyToSender Message.shutdownExecutorMsg])) ∧
    (Slave.getFramework s frameworkId = some fw →
      fw.getExecutor executorId = some e →
      e.pid = none →
      e.shutdown = false →
      (∃ r, (Slave.registerExecutor senderPid frameworkId executorId s).2 =
        [Effect.dispatchResourcesChanged fw.id e.id r,
         Effect.sendExecutor senderPid (Message.executorRegisteredMsg e.info
           fw.id fw.info s.id)] ++
        e.queuedTasks.map (fun t => Effect.sendExecutor senderPid
          (Message.runTaskMsg fw.info fw.id fw.pid t))) ∧
      (∃ fw' e', Slave.getFramework
          (Slave.registerExecutor senderPid frameworkId executorId s).1
          frameworkId = some fw' ∧
        fw'.getExecutor e.id = some e' ∧
        e'.pid = some senderPid ∧
        e'.queuedTasks = [] ∧
        ∀ t ∈ e.queuedTasks, ∃ lt ∈ e'.launchedTasks,
          lt.taskId = t.taskId ∧ lt.state = TaskState.staging) ∧
      (Slave.registerExecutor senderPid frameworkId executorId
          s).1.stats.stagingTasks =
        s.stats.stagingTasks + e.queuedTasks.length) := by
  refine ⟨?g1, ?g2, ?g3, ?g4, ?main⟩
  case g1 =>
    intro h
    simp only [Slave.registerExecutor, h]
  case g2 =>
    intro hfw he
    simp only [Slave.registerExecutor, hfw, he]
  case g3 =>
    intro hfw he hp
    simp only [Slave.registerExecutor, hfw, he, hp, if_true]
  case g4 =>
    intro hfw he hp hs
    simp only [Slave.registerExecutor, hfw, he, hp, Option.isSome_none,
      Bool.false_eq_true, if_false, hs, if_true]
  case main =>
    intro hfw he hp hs
    have hid : fw.id = frameworkId := by
      simpa using
        List.find?_some (p := fun f : Framework => f.id == frameworkId) hfw
    have hfw0 : Slave.getFramework s fw.id = some fw := by rw [hid]; exact hfw
    have hmem : e ∈ fw.executors := List.mem_of_find?_eq_some he
    have hESome : (fw.executors.find? (fun x => x.id == e.id)).isSome = true :=
      List.find?_isSome.mpr ⟨e, hmem, by simp⟩
    obtain ⟨e0, he0⟩ := Option.isSome_iff_exists.mp hESome
    refine ⟨?effects, ?state, ?stats⟩
    case effects =>
      refine ⟨(e.queuedTasks.foldl (fun (x : Executor) (t : TaskInfo) => x.addTask t) { e with pid := some senderPid }).isolationResources, ?_⟩
      simp only [Slave.registerExecutor, hfw, he, hp, Option.isSome_none,
        Bool.false_eq_true, if_false]
      rw [if_neg (by rw [hs]; exact Bool.false_ne_true)]
      rw [foldl_addTask_id, foldl_addTask_info, statsFold_id]
      rfl
    case state =>
      refine ⟨{ fw with executors := replaceExecutor fw.executors { e.queuedTasks.foldl (fun (x : Executor) (t : TaskInfo) => x.addTask t) { e with pid := some senderPid } with queuedTasks := [] } }, { e.queuedTasks.foldl (fun (x : Executor) (t : TaskInfo) => x.addTask t) { e with pid := some senderPid } with queuedTasks := [] }, ?look, ?exec, ?pid, ?queued, ?tasks⟩
      case look =>
        simp only [Slave.registerExecutor, hfw, he, hp, Option.isSome_none,
          Bool.false_eq_true, if_false]
        rw [if_neg (by rw [hs]; exact Bool.false_ne_true)]
        show ((e.queuedTasks.foldl (fun st _ => { st with stats := st.stats.incTask TaskState.staging }) (Slave.setFramework s { fw with executors := replaceExecutor fw.executors { e.queuedTasks.foldl (fun (x : Executor) (t : TaskInfo) => x.addTask t) { e with pid := some senderPid } with queuedTasks := [] } })).frameworks.find? (fun f => f.id == frameworkId)) = _
        rw [statsFold_frameworks]
        rw [← hid]
        exact getFramework_setFramework_self s
          { fw with executors := replaceExecutor fw.executors { e.queuedTasks.foldl (fun (x : Executor) (t : TaskInfo) => x.addTask t) { e with pid := some senderPid } with queuedTasks := [] } }
          fw hfw0
      case exec =>
        exact find?_replace_self_key fw.executors Executor.id
          { e.queuedTasks.foldl (fun (x : Executor) (t : TaskInfo) => x.addTask t) { e with pid := some senderPid } with queuedTasks := [] }
          e0 e.id
          (foldl_addTask_id e.queuedTasks { e with pid := some senderPid })
          he0
      case pid =>
        show (e.queuedTasks.foldl (fun (x : Executor) (t : TaskInfo) => x.addTask t) { e with pid := some senderPid }).pid = some senderPid
        rw [foldl_addTask_pid]
      case queued => rfl
      case tasks =>
        intro t ht
        exact foldl_addTask_mem e.queuedTasks { e with pid := some senderPid } t ht
    case stats =>
      simp only [Slave.registerExecutor, hfw, he, hp, Option.isSome_none,
        Bool.false_eq_true, if_false]
      rw [if_neg (by rw [hs]; exact Bool.false_ne_true)]
      rw [statsFold_staging]
      rfl

/-- Witness for claim C3: all five arms at concrete inputs: an unknown
framework, an unknown executor, an already registered executor, a
shutdown-marked executor, and the successful registration of e1 flushing
queued task t1. -/
theorem registerExecutor_spec_witness :
    Slave.registerExecutor "x" "f9" "e9" initialState =
      (initialState, [Effect.replyToSender Message.shutdownExecutorMsg]) ∧
    Slave.registerExecutor "x" "f1" "e9" stateAfterLaunch =
      (stateAfterLaunch, [Effect.replyToSender Message.shutdownExecutorMsg]) ∧
    Slave.registerExecutor "x" "f1" "e1" stateAfterRegister =
      (stateAfterRegister, [Effect.replyToSender Message.shutdownExecutorMsg]) ∧
    Slave.registerExecutor "x" "f1" "e1" stateAfterShutdownFramework =
      (stateAfterShutdownFramework,
       [Effect.replyToSender Message.shutdownExecutorMsg]) ∧
    (∃ r, (Slave.registerExecutor "epid1" "f1" "e1" stateAfterLaunch).2 =
      [Effect.dispatchResourcesChanged launchedFramework.id
         launchedExecutor.id r,
       Effect.sendExecutor "epid1" (Message.executorRegisteredMsg
         launchedExecutor.info launchedFramework.id launchedFramework.info
         stateAfterLaunch.id)] ++
      launchedExecutor.queuedTasks.map (fun t => Effect.sendExecutor "epid1"
        (Message.runTaskMsg launchedFramework.info launchedFramework.id
          launchedFramework.pid t))) ∧
    (∃ fw' e', Slave.getFramework
        (Slave.registerExecutor "epid1" "f1" "e1" stateAfterLaunch).1
        "f1" = some fw' ∧
      fw'.getExecutor launchedExecutor.id = some e' ∧
      e'.pid = some "epid1" ∧
      e'.queuedTasks = [] ∧
      ∀ t ∈ launchedExecutor.queuedTasks, ∃ lt ∈ e'.launchedTasks,
        lt.taskId = t.taskId ∧ lt.state = TaskState.staging) ∧
    (Slave.registerExecutor "epid1" "f1" "e1"
        stateAfterLaunch).1.stats.stagingTasks =
      stateAfterLaunch.stats.stagingTasks +
        launchedExecutor.queuedTasks.length := by
  refine ⟨?_, ?_, ?_, ?_, ?_, ?_, ?_⟩
  · exact (registerExecutor_spec "x" "f9" "e9" initialState
      launchedFramework launchedExecutor).1 (by rfl)
  · exact (registerExecutor_spec "x" "f1" "e9" stateAfterLaunch
      launchedFramework launchedExecutor).2.1 (by rfl) (by rfl)
  · exact (registerExecutor_spec "x" "f1" "e1" stateAfterRegister
      registeredFramework registeredExecutor).2.2.1 (by rfl) (by rfl) (by rfl)
  · exact (registerExecutor_spec "x" "f1" "e1" stateAfterShutdownFramework
      shutdownMarkedFramework shutdownMarkedExecutor).2.2.2.1
      (by rfl) (by rfl) (by rfl) (by rfl)
  · exact ((registerExecutor_spec "epid1" "f1" "e1" stateAfterLaunch
      launchedFramework launchedExecutor).2.2.2.2
      (by rfl) (by rfl) (by rfl) (by rfl)).1
  · exact ((registerExecutor_spec "epid1" "f1" "e1" stateAfterLaunch
      launchedFramework launchedExecutor).2.2.2.2
      (by rfl) (by rfl) (by rfl) (by rfl)).2.1
  · exact ((registerExecutor_spec "epid1" "f1" "e1" stateAfterLaunch
      launchedFramework launchedExecutor).2.2.2.2
      (by rfl) (by rfl) (by rfl) (by rfl)).2.2

/-! Helper lemmas on task ownership and the executor well-formedness
invariants, used for the executorExited proofs. -/

theorem ownsTask_iff_mem (e : Executor) (tid : String) :
    e.ownsTask tid = true ↔ tid ∈ executorTaskIds e := by
  unfold Executor.ownsTask executorTaskIds
  simp [List.any_eq_true, List.mem_append, List.mem_map, beq_iff_eq]

theorem ownsTask_of_mem_launched (e : Executor) (t : Task)
    (h : t ∈ e.launchedTasks) : e.ownsTask t.taskId = true := by
  unfold Executor.ownsTask
  have hany : (e.launchedTasks.any fun x => x.taskId == t.taskId) = true :=
    List.any_eq_true.mpr ⟨t, h, by simp⟩
  rw [hany, Bool.or_true]

theorem ownsTask_of_mem_queued (e : Executor) (t : TaskInfo)
    (h : t ∈ e.queuedTasks) : e.ownsTask t.taskId = true := by
  unfold Executor.ownsTask
  have hany : (e.queuedTasks.any fun x => x.taskId == t.taskId) = true :=
    List.any_eq_true.mpr ⟨t, h, by simp⟩
  rw [hany, Bool.true_or]

theorem any_filter_ne {α : Type} (l : List α) (f : α → String)
    (tid tid' : String) (h : ¬ tid' = tid) :
    ((l.filter (fun a => !(f a == tid))).any (fun a => f a == tid')) =
      (l.any (fun a => f a == tid')) := by
  induction l with
  | nil => rfl
  | cons a t ih =>
    by_cases hb : (f a == tid) = true
    · have hfa : f a = tid := by simpa using hb
      rw [List.filter_cons_of_neg (by simpa using hb), List.any_cons]
      have hne : (f a == tid') = false := by
        simp only [beq_eq_false_iff_ne, ne_eq, hfa]
        intro hh
        exact h hh.symm
      rw [hne, ih]
      simp
    · rw [List.filter_cons_of_pos (by simpa using hb), List.any_cons,
        List.any_cons, ih]

theorem process_owns_other (eX : Executor) (tid tid' : String)
    (stX : TaskState) (h : ¬ tid' = tid) :
    ((eX.updateTaskState tid stX).removeTask tid).ownsTask tid' =
      eX.ownsTask tid' := by
  unfold Executor.updateTaskState Executor.removeTask Executor.ownsTask
  dsimp only
  rw [any_filter_ne eX.queuedTasks TaskInfo.taskId tid tid' h]
  rw [any_filter_ne _ Task.taskId tid tid' h]
  rw [List.any_map]
  have hpred : ((fun t : Task => t.taskId == tid') ∘
      (fun t : Task => if t.taskId == tid then { t with state := stX } else t)) =
      (fun t : Task => t.taskId == tid') := by
    funext t
    by_cases hb : (t.taskId == tid) = true
    · simp [Function.comp, hb]
    · simp [Function.comp, hb]
  rw [hpred]

theorem process_owns_subset (eX : Executor) (tid tid' : String)
    (stX : TaskState)
    (h : ((eX.updateTaskState tid stX).removeTask tid).ownsTask tid' = true) :
    eX.ownsTask tid' = true := by
  by_cases heq : tid' = tid
  · subst heq
    rw [ownsTask_removeTask_self] at h
    exact Bool.noConfusion h
  · rw [process_owns_other eX tid tid' stX heq] at h
    exact h

theorem process_queued_eq (eX : Executor) (tid : String) (stX : TaskState)
    (h : tid ∉ eX.queuedTasks.map TaskInfo.taskId) :
    ((eX.updateTaskState tid stX).removeTask tid).queuedTasks =
      eX.queuedTasks := by
  show eX.queuedTasks.filter (fun t => !(t.taskId == tid)) = eX.queuedTasks
  apply List.filter_eq_self.mpr
  intro a ha
  simp only [Bool.not_eq_eq_eq_not, Bool.not_true, beq_eq_false_iff_ne, ne_eq]
  intro hh
  exact h (List.mem_map.mpr ⟨a, ha, hh⟩)

theorem find?_eq_of_unique {α : Type} (l : List α) (p : α → Bool) (a : α)
    (ha : a ∈ l) (hpa : p a = true)
    (huniq : ∀ b ∈ l, p b = true → b = a) :
    l.find? p = some a := by
  induction l with
  | nil => exact absurd ha (List.not_mem_nil a)
  | cons x t ih =>
    by_cases hx : p x = true
    · rw [List.find?_cons_of_pos _ hx, huniq x (List.mem_cons_self x t) hx]
    · rw [List.find?_cons_of_neg _ hx]
      rcases List.mem_cons.mp ha with heq | ht
      · subst heq
        exact absurd hpa hx
      · exact ih ht (fun b hb hpb => huniq b (List.mem_cons_of_mem x hb) hpb)

theorem canonical_owner (fw : Framework) (e : Executor)
    (hwf : FrameworkWF fw) (hmem : e ∈ fw.executors) (tid : String)
    (hown : e.ownsTask tid = true) :
    fw.getExecutorByTask tid = some e := by
  obtain ⟨hids, hexec, hpair⟩ := hwf
  apply find?_eq_of_unique _ _ _ hmem hown
  intro b hb hpb
  by_contra hne
  have hpair' : List.Pairwise (fun e1 e2 : Executor =>
      ∀ t, ¬ (e1.ownsTask t = true ∧ e2.ownsTask t = true)) fw.executors := by
    refine hpair.imp ?_
    intro e1 e2 h12 t hboth
    obtain ⟨h1, h2⟩ := hboth
    have hfalse := h12 t ((ownsTask_iff_mem e1 t).mp h1)
    rw [h2] at hfalse
    exact Bool.noConfusion hfalse
  have hsymm : Symmetric (fun e1 e2 : Executor =>
      ∀ t, ¬ (e1.ownsTask t = true ∧ e2.ownsTask t = true)) := by
    intro a b hab t hboth
    exact hab t ⟨hboth.2, hboth.1⟩
  exact (hpair'.forall hsymm) hb hmem hne tid ⟨hpb, hown⟩

theorem find?_replace_canonical (l : List Executor) (eX eP : Executor)
    (hid : eP.id = eX.id)
    (hsub : ∀ t, eP.ownsTask t = true → eX.ownsTask t = true)
    (hcanon : ∀ t, eX.ownsTask t = true →
      l.find? (fun x => x.ownsTask t) = some eX)
    (tid : String) (h : eP.ownsTask tid = true) :
    (replaceExecutor l eP).find? (fun x => x.ownsTask tid) = some eP := by
  unfold replaceExecutor
  revert hcanon
  induction l with
  | nil =>
    intro hcanon
    exact Option.noConfusion (hcanon tid (hsub tid h))
  | cons a t ih =>
    intro hcanon
    rw [List.map_cons]
    by_cases hb : (a.id == eP.id) = true
    · rw [if_pos hb]
      exact List.find?_cons_of_pos _ h
    · rw [if_neg hb]
      have ha : ¬ a.ownsTask tid = true := by
        intro hown
        have hc := hcanon tid (hsub tid h)
        rw [List.find?_cons_of_pos (p := fun x : Executor => x.ownsTask tid) _ hown] at hc
        have haX : a = eX := Option.some.inj hc
        exact hb (by simp [haX, hid])
      rw [List.find?_cons_of_neg (p := fun x : Executor => x.ownsTask tid) _ ha]
      apply ih
      intro t' ht'
      have hc := hcanon t' ht'
      by_cases ha' : a.ownsTask t' = true
      · rw [List.find?_cons_of_pos (p := fun x : Executor => x.ownsTask t') _ ha'] at hc
        have haX : a = eX := Option.some.inj hc
        exact absurd (by simp [haX, hid]) hb
      · rwa [List.find?_cons_of_neg (p := fun x : Executor => x.ownsTask t') _ ha'] at hc

theorem getFramework_setFramework_self_key (s : SlaveState)
    (fw fw0 : Framework) (k : String) (hk : fw.id = k)
    (h : Slave.getFramework s k = some fw0) :
    Slave.getFramework (Slave.setFramework s fw) k = some fw := by
  subst hk
  exact getFramework_setFramework_self s fw fw0 h

theorem transitionLiveTask_step (st : SlaveState) (fid eid tid : String)
    (b : Bool) (status : Int) (fwX : Framework) (eX : Executor)
    (hfw : Slave.getFramework st fid = some fwX)
    (hcanon : ∀ t, eX.ownsTask t = true → fwX.getExecutorByTask t = some eX)
    (hown : eX.ownsTask tid = true) :
    (Slave.transitionLiveTask tid eid fid b status st).2 =
      [Effect.dispatchResourcesChanged fwX.id ((eX.updateTaskState tid (if b then TaskState.failed else TaskState.lost)).removeTask tid).id ((eX.updateTaskState tid (if b then TaskState.failed else TaskState.lost)).removeTask tid).isolationResources,
       Effect.sendMaster (Message.statusUpdateMsg { frameworkId := fid, slaveId := st.id, executorId := some eid, taskId := tid, state := if b then TaskState.failed else TaskState.lost, message := if b then "Executor running the command of the task failed" else "Executor exited", timestamp := st.clock, uuid := st.nextUuid } (some st.selfPid)),
       Effect.scheduleStatusUpdateTimeout STATUS_UPDATE_RETRY_INTERVAL_SECONDS fwX.id st.nextUuid] ∧
    Slave.getFramework (Slave.transitionLiveTask tid eid fid b status st).1 fid =
      some { fwX with executors := replaceExecutor fwX.executors ((eX.updateTaskState tid (if b then TaskState.failed else TaskState.lost)).removeTask tid), updates := insertUpdate fwX.updates st.nextUuid { frameworkId := fid, slaveId := st.id, executorId := some eid, taskId := tid, state := if b then TaskState.failed else TaskState.lost, message := if b then "Executor running the command of the task failed" else "Executor exited", timestamp := st.clock, uuid := st.nextUuid } } ∧
    (Slave.transitionLiveTask tid eid fid b status st).1.id = st.id ∧
    (Slave.transitionLiveTask tid eid fid b status st).1.selfPid = st.selfPid := by
  have hid : fwX.id = fid := by
    simpa using
      List.find?_some (p := fun f : Framework => f.id == fid) hfw
  have he' := hcanon tid hown
  cases b with
  | true =>
    have hfw' : Slave.getFramework { st with nextUuid := st.nextUuid + 1 } fid =
        some fwX := hfw
    refine ⟨?_, ?_, ?_, ?_⟩
    · simp only [Slave.transitionLiveTask, if_true, Slave.createStatusUpdate,
        Slave.statusUpdate, hfw', he',
        show isTerminalTaskState TaskState.failed = true from rfl,
        Slave.setFramework, List.singleton_append]
    · simp only [Slave.transitionLiveTask, if_true, Slave.createStatusUpdate,
        Slave.statusUpdate, hfw', he',
        show isTerminalTaskState TaskState.failed = true from rfl]
      exact getFramework_setFramework_self_key { st with nextUuid := st.nextUuid + 1 }
        { fwX with executors := replaceExecutor fwX.executors ((eX.updateTaskState tid TaskState.failed).removeTask tid), updates := insertUpdate fwX.updates st.nextUuid { frameworkId := fid, slaveId := st.id, executorId := some eid, taskId := tid, state := TaskState.failed, message := "Executor running the command of the task failed", timestamp := st.clock, uuid := st.nextUuid } }
        fwX fid hid hfw'
    · simp only [Slave.transitionLiveTask, if_true, Slave.createStatusUpdate,
        Slave.statusUpdate, hfw', he',
        show isTerminalTaskState TaskState.failed = true from rfl,
        Slave.setFramework]
    · simp only [Slave.transitionLiveTask, if_true, Slave.createStatusUpdate,
        Slave.statusUpdate, hfw', he',
        show isTerminalTaskState TaskState.failed = true from rfl,
        Slave.setFramework]
  | false =>
    have hfw' : Slave.getFramework { st with nextUuid := st.nextUuid + 1 } fid =
        some fwX := hfw
    refine ⟨?_, ?_, ?_, ?_⟩
    · simp only [Slave.transitionLiveTask, Bool.false_eq_true, if_false, if_true, Slave.createStatusUpdate,
        Slave.statusUpdate, hfw', he',
        show isTerminalTaskState TaskState.lost = true from rfl,
        Slave.setFramework, List.singleton_append]
    · simp only [Slave.transitionLiveTask, Bool.false_eq_true, if_false, if_true, Slave.createStatusUpdate,
        Slave.statusUpdate, hfw', he',
        show isTerminalTaskState TaskState.lost = true from rfl]
      exact getFramework_setFramework_self_key { st with nextUuid := st.nextUuid + 1 }
        { fwX with executors := replaceExecutor fwX.executors ((eX.updateTaskState tid TaskState.lost).removeTask tid), updates := insertUpdate fwX.updates st.nextUuid { frameworkId := fid, slaveId := st.id, executorId := some eid, taskId := tid, state := TaskState.lost, message := "Executor exited", timestamp := st.clock, uuid := st.nextUuid } }
        fwX fid hid hfw'
    · simp only [Slave.transitionLiveTask, Bool.false_eq_true, if_false, if_true, Slave.createStatusUpdate,
        Slave.statusUpdate, hfw', he',
        show isTerminalTaskState TaskState.lost = true from rfl,
        Slave.setFramework]
    · simp only [Slave.transitionLiveTask, Bool.false_eq_true, if_false, if_true, Slave.createStatusUpdate,
        Slave.statusUpdate, hfw', he',
        show isTerminalTaskState TaskState.lost = true from rfl,
        Slave.setFramework]


theorem nonExited_dispatch (a b : String) (r : Nat) :
    nonExitedEffect (Effect.dispatchResourcesChanged a b r) := by
  intro sI fI eI stI h
  exact Effect.noConfusion h

theorem nonExited_statusMsg (u : StatusUpdate) (p : Option String) :
    nonExitedEffect (Effect.sendMaster (Message.statusUpdateMsg u p)) := by
  intro sI fI eI stI h
  have := Effect.sendMaster.inj h
  exact Message.noConfusion this

theorem nonExited_schedule (d : Nat) (a : String) (u : Nat) :
    nonExitedEffect (Effect.scheduleStatusUpdateTimeout d a u) := by
  intro sI fI eI stI h
  exact Effect.noConfusion h

theorem foldl_transitionLaunched_inv (fid eid : String) (status : Int)
    (Q0 : List TaskInfo) (sid spid : String) :
    ∀ (rest : List Task) (b : Bool) (st : SlaveState) (es : List Effect)
      (fwX : Framework) (eX : Executor),
    Slave.getFramework st fid = some fwX →
    fwX.getExecutor eid = some eX →
    (∀ t, eX.ownsTask t = true → fwX.getExecutorByTask t = some eX) →
    eX.queuedTasks = Q0 →
    (∀ t ∈ rest, isTerminalTaskState t.state = false →
      eX.ownsTask t.taskId = true) →
    (rest.map Task.taskId).Nodup →
    (∀ t ∈ rest, t.taskId ∉ Q0.map TaskInfo.taskId) →
    st.id = sid → st.selfPid = spid →
    ((∀ t ∈ rest, isTerminalTaskState t.state = false →
      ∃ ts uuid, Effect.sendMaster (Message.statusUpdateMsg
        { frameworkId := fid, slaveId := sid, executorId := some eid,
          taskId := t.taskId,
          state := if t.hasExecutorId then TaskState.lost else TaskState.failed,
          message := if t.hasExecutorId then "Executor exited" else "Executor running the command of the task failed",
          timestamp := ts, uuid := uuid } (some spid)) ∈
        (rest.foldl (Slave.transitionLaunchedStep eid fid status)
          (b, st, es)).2.2) ∧
    (∃ fwY eY,
      Slave.getFramework (rest.foldl (Slave.transitionLaunchedStep eid fid status) (b, st, es)).2.1 fid = some fwY ∧
      fwY.getExecutor eid = some eY ∧
      (∀ t, eY.ownsTask t = true → fwY.getExecutorByTask t = some eY) ∧
      eY.queuedTasks = Q0) ∧
    (rest.foldl (Slave.transitionLaunchedStep eid fid status) (b, st, es)).2.1.id = sid ∧
    (rest.foldl (Slave.transitionLaunchedStep eid fid status) (b, st, es)).2.1.selfPid = spid ∧
    (∀ x ∈ es, x ∈ (rest.foldl (Slave.transitionLaunchedStep eid fid status) (b, st, es)).2.2) ∧
    (∀ x ∈ (rest.foldl (Slave.transitionLaunchedStep eid fid status) (b, st, es)).2.2, x ∈ es ∨ nonExitedEffect x)) := by
  intro rest
  induction rest with
  | nil =>
    intro b st es fwX eX hfw hex hcanon hq hown hnd hq0 hsid hspid
    refine ⟨?_, ⟨fwX, eX, hfw, hex, hcanon, hq⟩, hsid, hspid, ?_, ?_⟩
    · intro t ht
      exact absurd ht (List.not_mem_nil t)
    · intro x hx
      exact hx
    · intro x hx
      exact Or.inl hx
  | cons t rest ih =>
    intro b st es fwX eX hfw hex hcanon hq hown hnd hq0 hsid hspid
    rw [List.foldl_cons]
    cases ht : isTerminalTaskState t.state with
    | true =>
      have hstep : Slave.transitionLaunchedStep eid fid status (b, st, es) t =
          (b, st, es) := by
        unfold Slave.transitionLaunchedStep
        rw [if_pos ht]
      rw [hstep]
      have hrest := ih b st es fwX eX hfw hex hcanon hq
        (fun t' ht' hnt => hown t' (List.mem_cons_of_mem t ht') hnt)
        (by rw [List.map_cons] at hnd; exact hnd.of_cons)
        (fun t' ht' => hq0 t' (List.mem_cons_of_mem t ht'))
        hsid hspid
      obtain ⟨h1, h2, h3, h4, h5, h6⟩ := hrest
      refine ⟨?_, h2, h3, h4, h5, h6⟩
      intro t' ht' hnt
      rcases List.mem_cons.mp ht' with heq | hmem
      · subst heq
        rw [ht] at hnt
        exact Bool.noConfusion hnt
      · exact h1 t' hmem hnt
    | false =>
      have hownt : eX.ownsTask t.taskId = true := hown t (List.mem_cons_self t rest) ht
      obtain ⟨heff, hlook, hid1, hspid1⟩ :=
        transitionLiveTask_step st fid eid t.taskId (!t.hasExecutorId) status
          fwX eX hfw hcanon hownt
      have hstep : Slave.transitionLaunchedStep eid fid status (b, st, es) t =
          (!t.hasExecutorId,
           (Slave.transitionLiveTask t.taskId eid fid (!t.hasExecutorId) status st).1,
           es ++ (Slave.transitionLiveTask t.taskId eid fid (!t.hasExecutorId) status st).2) := by
        unfold Slave.transitionLaunchedStep
        rw [if_neg (by rw [ht]; exact Bool.false_ne_true)]
      rw [hstep]
      -- shorthand for the processed executor and framework
      have hexid : eX.id = eid := by
        simpa using
          List.find?_some (p := fun x : Executor => x.id == eid) hex
      have hexY : Framework.getExecutor { fwX with executors := replaceExecutor fwX.executors ((eX.updateTaskState t.taskId (if !t.hasExecutorId then TaskState.failed else TaskState.lost)).removeTask t.taskId), updates := insertUpdate fwX.updates st.nextUuid { frameworkId := fid, slaveId := st.id, executorId := some eid, taskId := t.taskId, state := if !t.hasExecutorId then TaskState.failed else TaskState.lost, message := if !t.hasExecutorId then "Executor running the command of the task failed" else "Executor exited", timestamp := st.clock, uuid := st.nextUuid } } eid =
          some ((eX.updateTaskState t.taskId (if !t.hasExecutorId then TaskState.failed else TaskState.lost)).removeTask t.taskId) :=
        find?_replace_self_key fwX.executors Executor.id
          ((eX.updateTaskState t.taskId (if !t.hasExecutorId then TaskState.failed else TaskState.lost)).removeTask t.taskId)
          eX eid hexid hex
      have hcanonY : ∀ t', ((eX.updateTaskState t.taskId (if !t.hasExecutorId then TaskState.failed else TaskState.lost)).removeTask t.taskId).ownsTask t' = true →
          Framework.getExecutorByTask { fwX with executors := replaceExecutor fwX.executors ((eX.updateTaskState t.taskId (if !t.hasExecutorId then TaskState.failed else TaskState.lost)).removeTask t.taskId), updates := insertUpdate fwX.updates st.nextUuid { frameworkId := fid, slaveId := st.id, executorId := some eid, taskId := t.taskId, state := if !t.hasExecutorId then TaskState.failed else TaskState.lost, message := if !t.hasExecutorId then "Executor running the command of the task failed" else "Executor exited", timestamp := st.clock, uuid := st.nextUuid } } t' =
            some ((eX.updateTaskState t.taskId (if !t.hasExecutorId then TaskState.failed else TaskState.lost)).removeTask t.taskId) := by
        intro t' h
        exact find?_replace_canonical fwX.executors eX
          ((eX.updateTaskState t.taskId (if !t.hasExecutorId then TaskState.failed else TaskState.lost)).removeTask t.taskId) rfl
          (fun t2 h2 => process_owns_subset eX t.taskId t2 _ h2) hcanon t' h
      have hqY : ((eX.updateTaskState t.taskId (if !t.hasExecutorId then TaskState.failed else TaskState.lost)).removeTask t.taskId).queuedTasks = Q0 := by
        rw [process_queued_eq]
        · exact hq
        · rw [hq]
          exact hq0 t (List.mem_cons_self t rest)
      have hnd' : (rest.map Task.taskId).Nodup := by
        rw [List.map_cons] at hnd
        exact hnd.of_cons
      have htid_not : t.taskId ∉ rest.map Task.taskId := by
        rw [List.map_cons] at hnd
        exact (List.nodup_cons.mp hnd).1
      have hownY : ∀ t' ∈ rest, isTerminalTaskState t'.state = false →
          ((eX.updateTaskState t.taskId (if !t.hasExecutorId then TaskState.failed else TaskState.lost)).removeTask t.taskId).ownsTask t'.taskId = true := by
        intro t' ht' hnt
        have hne : ¬ t'.taskId = t.taskId := by
          intro hh
          exact htid_not (hh ▸ List.mem_map.mpr ⟨t', ht', rfl⟩)
        rw [process_owns_other eX t.taskId t'.taskId _ hne]
        exact hown t' (List.mem_cons_of_mem t ht') hnt
      have hrest := ih (!t.hasExecutorId)
        (Slave.transitionLiveTask t.taskId eid fid (!t.hasExecutorId) status st).1
        (es ++ (Slave.transitionLiveTask t.taskId eid fid (!t.hasExecutorId) status st).2)
        _ _ hlook hexY hcanonY hqY hownY hnd'
        (fun t' ht' => hq0 t' (List.mem_cons_of_mem t ht'))
        (hid1.trans hsid) (hspid1.trans hspid)
      obtain ⟨h1, h2, h3, h4, h5, h6⟩ := hrest
      refine ⟨?_, h2, h3, h4, ?_, ?_⟩
      · intro t' ht' hnt
        rcases List.mem_cons.mp ht' with heq | hmem
        · subst heq
          refine ⟨st.clock, st.nextUuid, ?_⟩
          apply h5
          rw [heff]
          subst hsid
          subst hspid
          apply List.mem_append_right
          cases hcmd : t'.hasExecutorId with
          | true => simp [hcmd]
          | false => simp [hcmd]
        · exact h1 t' hmem hnt
      · intro x hx
        exact h5 x (List.mem_append_left _ hx)
      · intro x hx
        rcases h6 x hx with hin | hnon
        · rcases List.mem_append.mp hin with hes | hnew
          · exact Or.inl hes
          · right
            rw [heff] at hnew
            rcases List.mem_cons.mp hnew with h1' | hnew
            · rw [h1']
              exact nonExited_dispatch _ _ _
            rcases List.mem_cons.mp hnew with h2' | hnew
            · rw [h2']
              exact nonExited_statusMsg _ _
            rcases List.mem_cons.mp hnew with h3' | hnew
            · rw [h3']
              exact nonExited_schedule _ _ _
            · exact absurd hnew (List.not_mem_nil x)
        · exact Or.inr hnon


theorem foldl_transitionQueued_inv (fid eid : String) (status : Int)
    (sid spid : String) :
    ∀ (rest : List TaskInfo) (b : Bool) (st : SlaveState) (es : List Effect)
      (fwX : Framework) (eX : Executor),
    Slave.getFramework st fid = some fwX →
    fwX.getExecutor eid = some eX →
    (∀ t, eX.ownsTask t = true → fwX.getExecutorByTask t = some eX) →
    (∀ t ∈ rest, eX.ownsTask t.taskId = true) →
    (rest.map TaskInfo.taskId).Nodup →
    st.id = sid → st.selfPid = spid →
    ((∀ t ∈ rest, ∃ ts uuid, Effect.sendMaster (Message.statusUpdateMsg
        { frameworkId := fid, slaveId := sid, executorId := some eid,
          taskId := t.taskId,
          state := if t.hasCommand then TaskState.failed else TaskState.lost,
          message := if t.hasCommand then "Executor running the command of the task failed" else "Executor exited",
          timestamp := ts, uuid := uuid } (some spid)) ∈
        (rest.foldl (Slave.transitionQueuedStep eid fid status)
          (b, st, es)).2.2) ∧
    (∃ fwY, Slave.getFramework (rest.foldl (Slave.transitionQueuedStep eid fid status) (b, st, es)).2.1 fid = some fwY) ∧
    (rest.foldl (Slave.transitionQueuedStep eid fid status) (b, st, es)).2.1.id = sid ∧
    (rest.foldl (Slave.transitionQueuedStep eid fid status) (b, st, es)).2.1.selfPid = spid ∧
    (∀ x ∈ es, x ∈ (rest.foldl (Slave.transitionQueuedStep eid fid status) (b, st, es)).2.2) ∧
    (∀ x ∈ (rest.foldl (Slave.transitionQueuedStep eid fid status) (b, st, es)).2.2, x ∈ es ∨ nonExitedEffect x)) := by
  intro rest
  induction rest with
  | nil =>
    intro b st es fwX eX hfw hex hcanon hown hnd hsid hspid
    refine ⟨?_, ⟨fwX, hfw⟩, hsid, hspid, ?_, ?_⟩
    · intro t ht
      exact absurd ht (List.not_mem_nil t)
    · intro x hx
      exact hx
    · intro x hx
      exact Or.inl hx
  | cons t rest ih =>
    intro b st es fwX eX hfw hex hcanon hown hnd hsid hspid
    rw [List.foldl_cons]
    have hownt : eX.ownsTask t.taskId = true := hown t (List.mem_cons_self t rest)
    obtain ⟨heff, hlook, hid1, hspid1⟩ :=
      transitionLiveTask_step st fid eid t.taskId t.hasCommand status
        fwX eX hfw hcanon hownt
    have hstep : Slave.transitionQueuedStep eid fid status (b, st, es) t =
        (t.hasCommand,
         (Slave.transitionLiveTask t.taskId eid fid t.hasCommand status st).1,
         es ++ (Slave.transitionLiveTask t.taskId eid fid t.hasCommand status st).2) := rfl
    rw [hstep]
    have hexid : eX.id = eid := by
      simpa using
        List.find?_some (p := fun x : Executor => x.id == eid) hex
    have hexY : Framework.getExecutor { fwX with executors := replaceExecutor fwX.executors ((eX.updateTaskState t.taskId (if t.hasCommand then TaskState.failed else TaskState.lost)).removeTask t.taskId), updates := insertUpdate fwX.updates st.nextUuid { frameworkId := fid, slaveId := st.id, executorId := some eid, taskId := t.taskId, state := if t.hasCommand then TaskState.failed else TaskState.lost, message := if t.hasCommand then "Executor running the command of the task failed" else "Executor exited", timestamp := st.clock, uuid := st.nextUuid } } eid =
        some ((eX.updateTaskState t.taskId (if t.hasCommand then TaskState.failed else TaskState.lost)).removeTask t.taskId) :=
      find?_replace_self_key fwX.executors Executor.id
        ((eX.updateTaskState t.taskId (if t.hasCommand then TaskState.failed else TaskState.lost)).removeTask t.taskId)
        eX eid hexid hex
    have hcanonY : ∀ t', ((eX.updateTaskState t.taskId (if t.hasCommand then TaskState.failed else TaskState.lost)).removeTask t.taskId).ownsTask t' = true →
        Framework.getExecutorByTask { fwX with executors := replaceExecutor fwX.executors ((eX.updateTaskState t.taskId (if t.hasCommand then TaskState.failed else TaskState.lost)).removeTask t.taskId), updates := insertUpdate fwX.updates st.nextUuid { frameworkId := fid, slaveId := st.id, executorId := some eid, taskId := t.taskId, state := if t.hasCommand then TaskState.failed else TaskState.lost, message := if t.hasCommand then "Executor running the command of the task failed" else "Executor exited", timestamp := st.clock, uuid := st.nextUuid } } t' =
          some ((eX.updateTaskState t.taskId (if t.hasCommand then TaskState.failed else TaskState.lost)).removeTask t.taskId) := by
      intro t' h
      exact find?_replace_canonical fwX.executors eX
        ((eX.updateTaskState t.taskId (if t.hasCommand then TaskState.failed else TaskState.lost)).removeTask t.taskId) rfl
        (fun t2 h2 => process_owns_subset eX t.taskId t2 _ h2) hcanon t' h
    have hnd' : (rest.map TaskInfo.taskId).Nodup := by
      rw [List.map_cons] at hnd
      exact hnd.of_cons
    have htid_not : t.taskId ∉ rest.map TaskInfo.taskId := by
      rw [List.map_cons] at hnd
      exact (List.nodup_cons.mp hnd).1
    have hownY : ∀ t' ∈ rest,
        ((eX.updateTaskState t.taskId (if t.hasCommand then TaskState.failed else TaskState.lost)).removeTask t.taskId).ownsTask t'.taskId = true := by
      intro t' ht'
      have hne : ¬ t'.taskId = t.taskId := by
        intro hh
        exact htid_not (hh ▸ List.mem_map.mpr ⟨t', ht', rfl⟩)
      rw [process_owns_other eX t.taskId t'.taskId _ hne]
      exact hown t' (List.mem_cons_of_mem t ht')
    have hrest := ih t.hasCommand
      (Slave.transitionLiveTask t.taskId eid fid t.hasCommand status st).1
      (es ++ (Slave.transitionLiveTask t.taskId eid fid t.hasCommand status st).2)
      _ _ hlook hexY hcanonY hownY hnd'
      (hid1.trans hsid) (hspid1.trans hspid)
    obtain ⟨h1, h2, h3, h4, h5, h6⟩ := hrest
    refine ⟨?_, h2, h3, h4, ?_, ?_⟩
    · intro t' ht'
      rcases List.mem_cons.mp ht' with heq | hmem
      · subst heq
        refine ⟨st.clock, st.nextUuid, ?_⟩
        apply h5
        rw [heff]
        subst hsid
        subst hspid
        apply List.mem_append_right
        exact List.mem_cons_of_mem _ (List.mem_cons_self _ _)
      · exact h1 t' hmem
    · intro x hx
      exact h5 x (List.mem_append_left _ hx)
    · intro x hx
      rcases h6 x hx with hin | hnon
      · rcases List.mem_append.mp hin with hes | hnew
        · exact Or.inl hes
        · right
          rw [heff] at hnew
          rcases List.mem_cons.mp hnew with h1' | hnew
          · rw [h1']
            exact nonExited_dispatch _ _ _
          rcases List.mem_cons.mp hnew with h2' | hnew
          · rw [h2']
            exact nonExited_statusMsg _ _
          rcases List.mem_cons.mp hnew with h3' | hnew
          · rw [h3']
            exact nonExited_schedule _ _ _
          · exact absurd hnew (List.not_mem_nil x)
      · exact Or.inr hnon


theorem launched_fold_flag (eid fid : String) (status : Int) :
    ∀ (L : List Task) (b : Bool) (st : SlaveState) (es : List Effect),
    (L.foldl (Slave.transitionLaunchedStep eid fid status) (b, st, es)).1 =
      L.foldl (fun bb t =>
        if isTerminalTaskState t.state then bb else !t.hasExecutorId) b := by
  intro L
  induction L with
  | nil =>
    intro b st es
    rfl
  | cons t L ih =>
    intro b st es
    rw [List.foldl_cons, List.foldl_cons]
    cases ht : isTerminalTaskState t.state with
    | true =>
      have h1 : Slave.transitionLaunchedStep eid fid status (b, st, es) t =
          (b, st, es) := by
        unfold Slave.transitionLaunchedStep
        rw [if_pos ht]
      rw [h1, if_pos rfl]
      exact ih b st es
    | false =>
      have h1 : Slave.transitionLaunchedStep eid fid status (b, st, es) t =
          (!t.hasExecutorId,
           (Slave.transitionLiveTask t.taskId eid fid (!t.hasExecutorId) status st).1,
           es ++ (Slave.transitionLiveTask t.taskId eid fid (!t.hasExecutorId) status st).2) := by
        unfold Slave.transitionLaunchedStep
        rw [if_neg (by rw [ht]; exact Bool.false_ne_true)]
      rw [h1, if_neg Bool.false_ne_true]
      exact ih _ _ _

theorem queued_fold_flag (eid fid : String) (status : Int) :
    ∀ (Q : List TaskInfo) (b : Bool) (st : SlaveState) (es : List Effect),
    (Q.foldl (Slave.transitionQueuedStep eid fid status) (b, st, es)).1 =
      Q.foldl (fun x u => u.hasCommand) b := by
  intro Q
  induction Q with
  | nil =>
    intro b st es
    rfl
  | cons t Q ih =>
    intro b st es
    rw [List.foldl_cons, List.foldl_cons]
    exact ih _ _ _

theorem pure_queued_flag_getLast :
    ∀ (Q : List TaskInfo) (b : Bool) (tq : TaskInfo),
    Q.getLast? = some tq →
    Q.foldl (fun x u => u.hasCommand) b = tq.hasCommand := by
  intro Q
  induction Q with
  | nil =>
    intro b tq h
    exact Option.noConfusion h
  | cons t Q ih =>
    intro b tq h
    rw [List.foldl_cons]
    cases Q with
    | nil =>
      rw [List.getLast?_singleton] at h
      rw [Option.some_inj] at h
      subst h
      rfl
    | cons u Q =>
      rw [List.getLast?_cons_cons] at h
      exact ih t.hasCommand tq h

theorem pure_launched_flag_terminal :
    ∀ (L : List Task) (b : Bool),
    (∀ t ∈ L, isTerminalTaskState t.state = true) →
    L.foldl (fun bb t =>
      if isTerminalTaskState t.state then bb else !t.hasExecutorId) b = b := by
  intro L
  induction L with
  | nil =>
    intro b _
    rfl
  | cons t L ih =>
    intro b h
    rw [List.foldl_cons, if_pos (h t (List.mem_cons_self t L))]
    exact ih b (fun t' ht' => h t' (List.mem_cons_of_mem t ht'))

theorem pure_launched_flag_homog :
    ∀ (L : List Task) (b : Bool) (c : Bool),
    (∀ t ∈ L, isTerminalTaskState t.state = false → (!t.hasExecutorId) = c) →
    (∃ t ∈ L, isTerminalTaskState t.state = false) →
    L.foldl (fun bb t =>
      if isTerminalTaskState t.state then bb else !t.hasExecutorId) b = c := by
  intro L
  induction L with
  | nil =>
    intro b c _ hne
    obtain ⟨t, ht, _⟩ := hne
    exact absurd ht (List.not_mem_nil t)
  | cons t L ih =>
    intro b c hc hne
    rw [List.foldl_cons]
    cases ht : isTerminalTaskState t.state with
    | true =>
      rw [if_pos rfl]
      apply ih b c (fun t' ht' h' => hc t' (List.mem_cons_of_mem t ht') h')
      obtain ⟨t', ht', hnt'⟩ := hne
      rcases List.mem_cons.mp ht' with heq | hmem
      · subst heq
        rw [ht] at hnt'
        exact Bool.noConfusion hnt'
      · exact ⟨t', hmem, hnt'⟩
    | false =>
      rw [if_neg Bool.false_ne_true]
      by_cases hL : ∃ t' ∈ L, isTerminalTaskState t'.state = false
      · exact ih _ c (fun t' ht' h' => hc t' (List.mem_cons_of_mem t ht') h') hL
      · have hall : ∀ t' ∈ L, isTerminalTaskState t'.state = true := by
          intro t' ht'
          cases h' : isTerminalTaskState t'.state with
          | true => rfl
          | false => exact absurd ⟨t', ht', h'⟩ hL
        rw [pure_launched_flag_terminal L _ hall]
        exact hc t (List.mem_cons_self t L) ht


theorem mem_ite_both {α : Type} {x : α} {c : Prop} [Decidable c]
    {l1 l2 : List α} (h1 : x ∈ l1) (h2 : x ∈ l2) :
    x ∈ (if c then l1 else l2) := by
  by_cases h : c
  · rw [if_pos h]
    exact h1
  · rw [if_neg h]
    exact h2

theorem executorExited_analysis (st : SlaveState) (fid eid : String)
    (status : Int) (fwX : Framework) (eX : Executor)
    (hfw : Slave.getFramework st fid = some fwX)
    (hex : fwX.getExecutor eid = some eX)
    (hwf : FrameworkWF fwX) :
    (∀ t ∈ eX.launchedTasks, isTerminalTaskState t.state = false →
      ∃ ts uuid, Effect.sendMaster (Message.statusUpdateMsg
        { frameworkId := fid, slaveId := st.id, executorId := some eid,
          taskId := t.taskId,
          state := if t.hasExecutorId then TaskState.lost else TaskState.failed,
          message := if t.hasExecutorId then "Executor exited" else "Executor running the command of the task failed",
          timestamp := ts, uuid := uuid } (some st.selfPid)) ∈
        (Slave.executorExited fid eid status st).2) ∧
    (∀ t ∈ eX.queuedTasks, ∃ ts uuid, Effect.sendMaster (Message.statusUpdateMsg
        { frameworkId := fid, slaveId := st.id, executorId := some eid,
          taskId := t.taskId,
          state := if t.hasCommand then TaskState.failed else TaskState.lost,
          message := if t.hasCommand then "Executor running the command of the task failed" else "Executor exited",
          timestamp := ts, uuid := uuid } (some st.selfPid)) ∈
        (Slave.executorExited fid eid status st).2) ∧
    (Effect.sendMaster (Message.exitedExecutorMsg st.id fid eid status) ∈
        (Slave.executorExited fid eid status st).2 ↔
      eX.queuedTasks.foldl (fun x u => u.hasCommand)
        (eX.launchedTasks.foldl (fun bb t =>
          if isTerminalTaskState t.state then bb else !t.hasExecutorId)
          false) = false) := by
  have hmem : eX ∈ fwX.executors := List.mem_of_find?_eq_some hex
  have hcanon : ∀ t, eX.ownsTask t = true →
      fwX.getExecutorByTask t = some eX :=
    fun t h => canonical_owner fwX eX hwf hmem t h
  obtain ⟨hndQ, hndL, hQL⟩ := hwf.2.1 eX hmem
  have hq0 : ∀ t ∈ eX.launchedTasks,
      t.taskId ∉ eX.queuedTasks.map TaskInfo.taskId := by
    intro t ht hin
    exact (hQL t.taskId hin) (List.mem_map.mpr ⟨t, ht, rfl⟩)
  have hL := foldl_transitionLaunched_inv fid eid status eX.queuedTasks
    st.id st.selfPid eX.launchedTasks false st [] fwX eX hfw hex hcanon rfl
    (fun t ht _ => ownsTask_of_mem_launched eX t ht) hndL hq0 rfl rfl
  obtain ⟨hL1, ⟨fwY, eY, hfwY, hexY, hcanonY, hqY⟩, hLid, hLspid, hLsub, hLnon⟩ := hL
  have hQ := foldl_transitionQueued_inv fid eid status st.id st.selfPid
    eX.queuedTasks
    (eX.launchedTasks.foldl (Slave.transitionLaunchedStep eid fid status) (false, st, [])).1
    (eX.launchedTasks.foldl (Slave.transitionLaunchedStep eid fid status) (false, st, [])).2.1
    (eX.launchedTasks.foldl (Slave.transitionLaunchedStep eid fid status) (false, st, [])).2.2
    fwY eY hfwY hexY hcanonY
    (fun t ht => ownsTask_of_mem_queued eY t (by rw [hqY]; exact ht))
    hndQ hLid hLspid
  obtain ⟨hQ1', ⟨fwZ, hfwZ'⟩, hQid', hQspid', hQsub', hQnon'⟩ := hQ
  have hQ1 : ∀ t ∈ eX.queuedTasks, ∃ ts uuid,
      Effect.sendMaster (Message.statusUpdateMsg
        { frameworkId := fid, slaveId := st.id, executorId := some eid,
          taskId := t.taskId,
          state := if t.hasCommand then TaskState.failed else TaskState.lost,
          message := if t.hasCommand then "Executor running the command of the task failed" else "Executor exited",
          timestamp := ts, uuid := uuid } (some st.selfPid)) ∈
      (eX.queuedTasks.foldl (Slave.transitionQueuedStep eid fid status)
        (eX.launchedTasks.foldl (Slave.transitionLaunchedStep eid fid status)
          (false, st, []))).2.2 := hQ1'
  have hfwZ : Slave.getFramework
      (eX.queuedTasks.foldl (Slave.transitionQueuedStep eid fid status)
        (eX.launchedTasks.foldl (Slave.transitionLaunchedStep eid fid status)
          (false, st, []))).2.1 fid = some fwZ := hfwZ'
  have hQid : (eX.queuedTasks.foldl (Slave.transitionQueuedStep eid fid status)
      (eX.launchedTasks.foldl (Slave.transitionLaunchedStep eid fid status)
        (false, st, []))).2.1.id = st.id := hQid'
  have hQsub : ∀ x ∈ (eX.launchedTasks.foldl
        (Slave.transitionLaunchedStep eid fid status) (false, st, [])).2.2,
      x ∈ (eX.queuedTasks.foldl (Slave.transitionQueuedStep eid fid status)
        (eX.launchedTasks.foldl (Slave.transitionLaunchedStep eid fid status)
          (false, st, []))).2.2 := hQsub'
  have hQnon : ∀ x ∈ (eX.queuedTasks.foldl
        (Slave.transitionQueuedStep eid fid status)
        (eX.launchedTasks.foldl (Slave.transitionLaunchedStep eid fid status)
          (false, st, []))).2.2,
      x ∈ (eX.launchedTasks.foldl
        (Slave.transitionLaunchedStep eid fid status) (false, st, [])).2.2 ∨
      nonExitedEffect x := hQnon'
  have hflag : (eX.queuedTasks.foldl (Slave.transitionQueuedStep eid fid status)
      (eX.launchedTasks.foldl (Slave.transitionLaunchedStep eid fid status)
        (false, st, []))).1 =
      eX.queuedTasks.foldl (fun x u => u.hasCommand)
        (eX.launchedTasks.foldl (fun bb t =>
          if isTerminalTaskState t.state then bb else !t.hasExecutorId)
          false) := by
    have h1 : (eX.queuedTasks.foldl (Slave.transitionQueuedStep eid fid status)
        (eX.launchedTasks.foldl (Slave.transitionLaunchedStep eid fid status)
          (false, st, []))).1 =
        eX.queuedTasks.foldl (fun x u => u.hasCommand)
          (eX.launchedTasks.foldl (Slave.transitionLaunchedStep eid fid status)
            (false, st, [])).1 :=
      queued_fold_flag eid fid status eX.queuedTasks _ _ _
    rw [h1, launched_fold_flag eid fid status]
  refine ⟨?_, ?_, ?_⟩
  · intro t ht hnt
    obtain ⟨ts, u, hm⟩ := hL1 t ht hnt
    refine ⟨ts, u, ?_⟩
    simp only [Slave.executorExited, hfw, hex, hfwY, hexY, hqY]
    apply List.mem_append_left
    apply mem_ite_both
    · exact hQsub _ hm
    · exact List.mem_append_left _ (hQsub _ hm)
  · intro t ht
    obtain ⟨ts, u, hm⟩ := hQ1 t ht
    refine ⟨ts, u, ?_⟩
    simp only [Slave.executorExited, hfw, hex, hfwY, hexY, hqY]
    apply List.mem_append_left
    apply mem_ite_both
    · exact hm
    · exact List.mem_append_left _ hm
  · simp only [Slave.executorExited, hfw, hex, hfwY, hexY, hqY]
    rw [hQid, ← hflag]
    cases hfl : (eX.queuedTasks.foldl (Slave.transitionQueuedStep eid fid status)
        (eX.launchedTasks.foldl (Slave.transitionLaunchedStep eid fid status)
          (false, st, []))).1 with
    | true =>
      rw [if_pos rfl]
      constructor
      · intro h
        exfalso
        rcases List.mem_append.mp h with hE | hGC
        · rcases hQnon _ hE with hE1 | hnon
          · rcases hLnon _ hE1 with hnil | hnon
            · exact List.not_mem_nil _ hnil
            · exact hnon st.id fid eid status rfl
          · exact hnon st.id fid eid status rfl
        · rcases List.mem_cons.mp hGC with heq | hnil
          · exact Effect.noConfusion heq
          · exact List.not_mem_nil _ hnil
      · intro h
        exact Bool.noConfusion h
    | false =>
      rw [if_neg Bool.false_ne_true]
      constructor
      · intro _
        rfl
      · intro _
        exact List.mem_append_left _
          (List.mem_append_right _ (List.mem_cons_self _ _))


theorem getLast_mem_of_eq_some {α : Type} :
    ∀ (l : List α) (a : α), l.getLast? = some a → a ∈ l := by
  intro l
  induction l with
  | nil =>
    intro a h
    exact Option.noConfusion h
  | cons t l ih =>
    intro a h
    cases l with
    | nil =>
      rw [List.getLast?_singleton] at h
      rw [Option.some_inj] at h
      subst h
      exact List.mem_cons_self _ _
    | cons u L =>
      rw [List.getLast?_cons_cons] at h
      exact List.mem_cons_of_mem _ (ih a h)

theorem pure_launched_flag_getLast :
    ∀ (L : List Task) (b : Bool) (tl : Task),
    (L.filter (fun t => !isTerminalTaskState t.state)).getLast? = some tl →
    L.foldl (fun bb t =>
      if isTerminalTaskState t.state then bb else !t.hasExecutorId) b =
      !tl.hasExecutorId := by
  intro L
  induction L with
  | nil =>
    intro b tl h
    exact Option.noConfusion h
  | cons t L ih =>
    intro b tl h
    rw [List.foldl_cons]
    cases ht : isTerminalTaskState t.state with
    | true =>
      rw [if_pos rfl]
      rw [List.filter_cons_of_neg (by rw [ht]; exact Bool.false_ne_true)] at h
      exact ih b tl h
    | false =>
      rw [if_neg Bool.false_ne_true]
      rw [List.filter_cons_of_pos (by rw [ht]; rfl)] at h
      cases hF : L.filter (fun t => !isTerminalTaskState t.state) with
      | nil =>
        rw [hF, List.getLast?_singleton] at h
        rw [Option.some_inj] at h
        subst h
        apply pure_launched_flag_terminal
        intro t' ht'
        have := List.filter_eq_nil_iff.mp hF t' ht'
        cases h' : isTerminalTaskState t'.state with
        | true => rfl
        | false =>
          exfalso
          apply this
          rw [h']
          rfl
      | cons u F =>
        rw [hF, List.getLast?_cons_cons] at h
        rw [← hF] at h
        exact ih _ tl h

theorem foldl_launched_terminal_noop (eid fid : String) (status : Int) :
    ∀ (L : List Task) (acc : Bool × SlaveState × List Effect),
    (∀ t ∈ L, isTerminalTaskState t.state = true) →
    L.foldl (Slave.transitionLaunchedStep eid fid status) acc = acc := by
  intro L
  induction L with
  | nil =>
    intro acc _
    rfl
  | cons t L ih =>
    intro acc h
    rw [List.foldl_cons]
    have hstep : Slave.transitionLaunchedStep eid fid status acc t = acc := by
      unfold Slave.transitionLaunchedStep
      rw [if_pos (h t (List.mem_cons_self t L))]
    rw [hstep]
    exact ih acc (fun t' ht' => h t' (List.mem_cons_of_mem t ht'))

theorem destroyExecutor_getExecutor_none (fw : Framework) (eid : String) :
    (fw.destroyExecutor eid).getExecutor eid = none := by
  unfold Framework.destroyExecutor Framework.getExecutor
  apply List.find?_eq_none.mpr
  intro x hx
  have hk := (List.mem_filter.mp hx).2
  intro hp
  rw [hp] at hk
  exact Bool.noConfusion hk


/-- C4: on executorExited with the framework and the executor present in a
well-formed framework, every launched task with a non-terminal state gets a
synthetic status update sent to the master, FAILED when the task carried
its own command (no task-provided executor) and LOST otherwise, each with
the human-readable reason string; every queued task gets one by the same
rule (FAILED when the TaskInfo carries a command); and when every task the
handler examines agrees on command-ness c and at least one task is
examined, the ExitedExecutor message carrying the raw exit status is sent
to the master if and only if the executor is not a command executor
(c = false). -/
theorem executorExited_transitions_tasks
    (st : SlaveState) (fid eid : String) (status : Int)
    (fwX : Framework) (eX : Executor) (c : Bool)
    (hfw : Slave.getFramework st fid = some fwX)
    (hex : fwX.getExecutor eid = some eX)
    (hwf : FrameworkWF fwX) :
    (∀ t ∈ eX.launchedTasks, isTerminalTaskState t.state = false →
      ∃ ts uuid, Effect.sendMaster (Message.statusUpdateMsg
        { frameworkId := fid, slaveId := st.id, executorId := some eid,
          taskId := t.taskId,
          state := if t.hasExecutorId then TaskState.lost else TaskState.failed,
          message := if t.hasExecutorId then "Executor exited" else "Executor running the command of the task failed",
          timestamp := ts, uuid := uuid } (some st.selfPid)) ∈
        (Slave.executorExited fid eid status st).2) ∧
    (∀ t ∈ eX.queuedTasks, ∃ ts uuid, Effect.sendMaster (Message.statusUpdateMsg
        { frameworkId := fid, slaveId := st.id, executorId := some eid,
          taskId := t.taskId,
          state := if t.hasCommand then TaskState.failed else TaskState.lost,
          message := if t.hasCommand then "Executor running the command of the task failed" else "Executor exited",
          timestamp := ts, uuid := uuid } (some st.selfPid)) ∈
        (Slave.executorExited fid eid status st).2) ∧
    ((∀ t ∈ eX.launchedTasks, isTerminalTaskState t.state = false →
        (!t.hasExecutorId) = c) →
     (∀ t ∈ eX.queuedTasks, t.hasCommand = c) →
     ((∃ t ∈ eX.launchedTasks, isTerminalTaskState t.state = false) ∨
       ¬ eX.queuedTasks = []) →
     (Effect.sendMaster (Message.exitedExecutorMsg st.id fid eid status) ∈
        (Slave.executorExited fid eid status st).2 ↔ c = false)) := by
  obtain ⟨h1, h2, h3⟩ :=
    executorExited_analysis st fid eid status fwX eX hfw hex hwf
  refine ⟨h1, h2, ?_⟩
  intro hc1 hc2 hne
  rw [h3]
  have hpure : eX.queuedTasks.foldl (fun x u => u.hasCommand)
      (eX.launchedTasks.foldl (fun bb t =>
        if isTerminalTaskState t.state then bb else !t.hasExecutorId)
        false) = c := by
    cases hQe : eX.queuedTasks with
    | nil =>
      rw [List.foldl_nil]
      apply pure_launched_flag_homog eX.launchedTasks false c hc1
      rcases hne with hLne | hQne
      · exact hLne
      · exact absurd hQe hQne
    | cons q qs =>
      have hlast : (q :: qs).getLast? =
          some ((q :: qs).getLast (List.cons_ne_nil q qs)) :=
        List.getLast?_eq_getLast (q :: qs) (List.cons_ne_nil q qs)
      rw [pure_queued_flag_getLast (q :: qs) _ _ hlast]
      apply hc2
      rw [hQe]
      exact getLast_mem_of_eq_some (q :: qs) _ hlast
  rw [hpure]

/-- C10: on executorExited for an executor all of whose launched tasks are
terminal and whose queued set is empty, the agent sends ExitedExecutor to
the master (the executor is classified as non-command since no task is
examined), schedules the executor directory for GC, and destroys the
executor record; and when tasks are examined, whether ExitedExecutor is
suppressed depends only on the command-ness of the last task iterated (the
last queued task, or the last non-terminal launched task when no task is
queued). -/
theorem executorExited_no_live_tasks_spec
    (st : SlaveState) (fid eid : String) (status : Int)
    (fwX : Framework) (eX : Executor)
    (hfw : Slave.getFramework st fid = some fwX)
    (hex : fwX.getExecutor eid = some eX)
    (hwf : FrameworkWF fwX) :
    ((∀ t ∈ eX.launchedTasks, isTerminalTaskState t.state = true) →
     eX.queuedTasks = [] →
     Slave.executorExited fid eid status st =
       (Slave.setFramework st (fwX.destroyExecutor eid),
        [Effect.sendMaster (Message.exitedExecutorMsg st.id fid eid status),
         Effect.scheduleExecutorDirGC eX.directory]) ∧
     (fwX.destroyExecutor eid).getExecutor eid = none) ∧
    (∀ tq, eX.queuedTasks.getLast? = some tq →
      (Effect.sendMaster (Message.exitedExecutorMsg st.id fid eid status) ∉
        (Slave.executorExited fid eid status st).2 ↔ tq.hasCommand = true)) ∧
    (eX.queuedTasks = [] → ∀ tl,
      (eX.launchedTasks.filter
        (fun t => !isTerminalTaskState t.state)).getLast? = some tl →
      (Effect.sendMaster (Message.exitedExecutorMsg st.id fid eid status) ∉
        (Slave.executorExited fid eid status st).2 ↔
        (!tl.hasExecutorId) = true)) := by
  obtain ⟨_, _, h3⟩ :=
    executorExited_analysis st fid eid status fwX eX hfw hex hwf
  refine ⟨?_, ?_, ?_⟩
  · intro hterm hqe
    have hnoop : eX.launchedTasks.foldl
        (Slave.transitionLaunchedStep eid fid status) (false, st, []) =
        (false, st, []) :=
      foldl_launched_terminal_noop eid fid status eX.launchedTasks _ hterm
    constructor
    · simp only [Slave.executorExited, hfw, hex, hnoop, hqe, List.foldl_nil,
        Bool.false_eq_true, if_false, List.nil_append, List.singleton_append]
    · exact destroyExecutor_getExecutor_none fwX eid
  · intro tq hlast
    rw [pure_queued_flag_getLast eX.queuedTasks _ tq hlast] at h3
    constructor
    · intro hnot
      cases htq : tq.hasCommand with
      | true => rfl
      | false => exact absurd (h3.mpr htq) hnot
    · intro htq hmem
      have hfalse := h3.mp hmem
      rw [htq] at hfalse
      exact Bool.noConfusion hfalse
  · intro hqe tl hlast
    rw [hqe, List.foldl_nil,
      pure_launched_flag_getLast eX.launchedTasks false tl hlast] at h3
    constructor
    · intro hnot
      cases htl : (!tl.hasExecutorId) with
      | true => rfl
      | false => exact absurd (h3.mpr htl) hnot
    · intro htl hmem
      have hfalse := h3.mp hmem
      rw [htl] at hfalse
      exact Bool.noConfusion hfalse

theorem executorExited_transitions_tasks_witness :
    Slave.getFramework stateAfterRegister "f1" = some registeredFramework ∧
    registeredFramework.getExecutor "e1" = some registeredExecutor ∧
    FrameworkWF registeredFramework ∧
    (Effect.sendMaster
        (Message.exitedExecutorMsg stateAfterRegister.id "f1" "e1" 9) ∈
      (Slave.executorExited "f1" "e1" 9 stateAfterRegister).2 ↔
      false = false) ∧
    (∃ ts uuid, Effect.sendMaster (Message.statusUpdateMsg
        { frameworkId := "f1", slaveId := stateAfterRegister.id,
          executorId := some "e1", taskId := "t1", state := TaskState.lost,
          message := "Executor exited", timestamp := ts, uuid := uuid }
        (some stateAfterRegister.selfPid)) ∈
      (Slave.executorExited "f1" "e1" 9 stateAfterRegister).2) := by
  have h := executorExited_transitions_tasks stateAfterRegister "f1" "e1" 9
    registeredFramework registeredExecutor false rfl rfl
    (by unfold FrameworkWF ExecutorWF; decide)
  refine ⟨rfl, rfl, by unfold FrameworkWF ExecutorWF; decide, ?_, ?_⟩
  · exact h.2.2 (by decide) (by decide) (Or.inl (by decide))
  · exact h.1 { taskId := "t1", hasExecutorId := true, state := TaskState.staging, resources := 1 } (by decide) (by decide)

theorem executorExited_no_live_tasks_spec_witness :
    Slave.getFramework stateAfterKill "f1" = some killedFramework ∧
    killedFramework.getExecutor "e1" = some killedExecutor ∧
    FrameworkWF killedFramework ∧
    (Slave.executorExited "f1" "e1" 9 stateAfterKill =
       (Slave.setFramework stateAfterKill
          (killedFramework.destroyExecutor "e1"),
        [Effect.sendMaster
           (Message.exitedExecutorMsg stateAfterKill.id "f1" "e1" 9),
         Effect.scheduleExecutorDirGC killedExecutor.directory]) ∧
     (killedFramework.destroyExecutor "e1").getExecutor "e1" = none) :=
  ⟨rfl, rfl, by unfold FrameworkWF ExecutorWF; decide,
   (executorExited_no_live_tasks_spec stateAfterKill "f1" "e1" 9
      killedFramework killedExecutor rfl rfl
      (by unfold FrameworkWF ExecutorWF; decide)).1
     (by decide) rfl⟩

/-- C5: on RunTask for an existing framework: when the target executor is
marked shutdown, the agent sends a terminal LOST status update to the
master and the registry is untouched (so both task maps of that executor
are unchanged); when the target executor exists with its pid unset, the
task is placed into queuedTasks only, launchedTasks unchanged; and in
every case, every executor of the framework marked shutdown keeps exactly
its queued and launched task maps, so a shutting down executor never
gains a task from a RunTask. -/
theorem shutdown_executor_never_gains_tasks
    (frameworkInfo : FrameworkInfo) (fid pid : String) (task : TaskInfo)
    (s : SlaveState) (fw : Framework) (e : Executor)
    (hfw : Slave.getFramework s fid = some fw)
    (he : fw.getExecutor (fw.getExecutorInfo task).executorId = some e) :
    (e.shutdown = true →
      Slave.runTask frameworkInfo fid pid task s =
        ({ s with nextUuid := s.nextUuid + 1 },
         [Effect.sendMaster (Message.statusUpdateMsg
           { frameworkId := fid, slaveId := s.id,
             executorId := some (fw.getExecutorInfo task).executorId,
             taskId := task.taskId, state := TaskState.lost, message := "",
             timestamp := s.clock, uuid := s.nextUuid } none)]) ∧
      isTerminalTaskState TaskState.lost = true ∧
      Slave.getFramework (Slave.runTask frameworkInfo fid pid task s).1 fid =
        some fw) ∧
    (e.shutdown = false → e.pid = none →
      Slave.runTask frameworkInfo fid pid task s =
        (Slave.setFramework s { fw with executors := replaceExecutor fw.executors { e with queuedTasks := insertTaskInfo e.queuedTasks task } }, []) ∧
      Executor.launchedTasks
        { e with queuedTasks := insertTaskInfo e.queuedTasks task } =
        e.launchedTasks ∧
      ((e.queuedTasks.any fun x => x.taskId == task.taskId) = false →
        insertTaskInfo e.queuedTasks task = e.queuedTasks ++ [task])) ∧
    (∀ eid aE, fw.getExecutor eid = some aE → aE.shutdown = true →
      ∃ fw2 aE2,
        Slave.getFramework (Slave.runTask frameworkInfo fid pid task s).1
          fid = some fw2 ∧
        fw2.getExecutor eid = some aE2 ∧
        aE2.queuedTasks = aE.queuedTasks ∧
        aE2.launchedTasks = aE.launchedTasks) := by
  have hrt : Slave.runTask frameworkInfo fid pid task s =
      Slave.runTaskDispatch fid fw task s := by
    unfold Slave.runTask
    rw [hfw]
  have hfid : fw.id = fid := by
    simpa using
      List.find?_some (p := fun f : Framework => f.id == fid) hfw
  have heid : e.id = (fw.getExecutorInfo task).executorId := by
    simpa using
      List.find?_some (p := fun x : Executor =>
        x.id == (fw.getExecutorInfo task).executorId) he
  refine ⟨?_, ?_, ?_⟩
  · intro hs
    rw [hrt, runTaskDispatch_shutdown fid fw task s e he hs]
    exact ⟨rfl, rfl, hfw⟩
  · intro hs hp
    rw [hrt, runTaskDispatch_queue fid fw task s e he hs hp]
    refine ⟨rfl, rfl, ?_⟩
    intro hany
    unfold insertTaskInfo
    rw [hany]
    rw [if_neg Bool.false_ne_true]
  · intro eid aE haE hashut
    rw [hrt]
    cases hs : e.shutdown with
    | true =>
      rw [runTaskDispatch_shutdown fid fw task s e he hs]
      exact ⟨fw, aE, hfw, haE, rfl, rfl⟩
    | false =>
      have hor : ¬ e.id = eid := by
        intro heq
        have he2 : fw.getExecutor eid = some e := by
          rw [← heq, heid]
          exact he
        have haEe : aE = e := by
          rw [he2] at haE
          exact (Option.some_inj.mp haE).symm
        rw [haEe, hs] at hashut
        exact Bool.noConfusion hashut
      have hne : ¬ Executor.id
          { e with queuedTasks := insertTaskInfo e.queuedTasks task } = eid :=
        hor
      have hne2 : ¬ Executor.id (e.addTask task) = eid := by
        intro hh
        apply hor
        unfold Executor.addTask at hh
        exact hh
      cases hp : e.pid with
      | none =>
        rw [runTaskDispatch_queue fid fw task s e he hs hp]
        refine ⟨{ fw with executors := replaceExecutor fw.executors { e with queuedTasks := insertTaskInfo e.queuedTasks task } }, aE, ?_, ?_, rfl, rfl⟩
        · exact getFramework_setFramework_self_key s _ fw fid hfid hfw
        · show (replaceExecutor fw.executors _).find? (fun x => x.id == eid) = some aE
          unfold replaceExecutor
          rw [find?_replace_other fw.executors Executor.id _ eid hne]
          exact haE
      | some epid =>
        rw [runTaskDispatch_forward fid fw task s e epid he hs hp]
        refine ⟨{ fw with executors := replaceExecutor fw.executors (e.addTask task) }, aE, ?_, ?_, rfl, rfl⟩
        · exact getFramework_setFramework_self_key _ _ fw fid hfid hfw
        · show (replaceExecutor fw.executors _).find? (fun x => x.id == eid) = some aE
          unfold replaceExecutor
          rw [find?_replace_other fw.executors Executor.id _ eid hne2]
          exact haE


theorem shutdown_executor_never_gains_tasks_witness :
    Slave.getFramework stateAfterShutdownFramework "f1" =
      some shutdownMarkedFramework ∧
    shutdownMarkedFramework.getExecutor
      (shutdownMarkedFramework.getExecutorInfo sampleTask2).executorId =
      some shutdownMarkedExecutor ∧
    shutdownMarkedExecutor.shutdown = true ∧
    (Slave.runTask sampleFrameworkInfo "f1" "driver1" sampleTask2 stateAfterShutdownFramework =
       ({ stateAfterShutdownFramework with nextUuid := stateAfterShutdownFramework.nextUuid + 1 },
        [Effect.sendMaster (Message.statusUpdateMsg { frameworkId := "f1", slaveId := stateAfterShutdownFramework.id, executorId := some (shutdownMarkedFramework.getExecutorInfo sampleTask2).executorId, taskId := sampleTask2.taskId, state := TaskState.lost, message := "", timestamp := stateAfterShutdownFramework.clock, uuid := stateAfterShutdownFramework.nextUuid } none)]) ∧
     isTerminalTaskState TaskState.lost = true ∧
     Slave.getFramework (Slave.runTask sampleFrameworkInfo "f1" "driver1" sampleTask2 stateAfterShutdownFramework).1 "f1" =
       some shutdownMarkedFramework) :=
  ⟨rfl, rfl, rfl,
   (shutdown_executor_never_gains_tasks sampleFrameworkInfo "f1" "driver1"
      sampleTask2 stateAfterShutdownFramework shutdownMarkedFramework
      shutdownMarkedExecutor rfl rfl).1 rfl⟩

end Mesos
